import Mathlib

/-!
Verification of the order lifecycle engine of the thinkorswim/Schwab trading
bot (src/api_trader). The Python code is shallowly embedded: each method of
ApiTrader, OrderBuilder and Tasks that the claims touch becomes a pure Lean
function over an explicit engine state. The embedding fixes one engine
instance, hence one trader name and one account id; every Mongo filter in the
source also fixes these two fields, so records are keyed by the remaining
(Symbol, Strategy) pair.

Numbers: Python floats are modelled as rationals. The rational operations
are written with mkRat and Rat.divInt so that every definition evaluates
inside the kernel; the lemmas qMul_eq, qDiv_eq, qSub_eq, qInt_eq, qPow10_eq
identify them with the standard field operations on the rationals.
Python round uses round-half-to-even, modelled exactly on rationals by
roundHalfEven; Python int() truncates toward zero, modelled by ratTrunc.
-/

/-! ## Rational helpers (kernel-computable) -/

/-- Embedding of an integer as a rational. -/
def qInt (n : ℤ) : ℚ := mkRat n 1

/-- Rational multiplication, written on raw numerators and denominators. -/
def qMul (a b : ℚ) : ℚ := mkRat (a.num * b.num) (a.den * b.den)

/-- Rational division, written on raw numerators and denominators. -/
def qDiv (a b : ℚ) : ℚ := Rat.divInt (a.num * (b.den : ℤ)) ((a.den : ℤ) * b.num)

/-- Rational subtraction, written on raw numerators and denominators. -/
def qSub (a b : ℚ) : ℚ := mkRat (a.num * (b.den : ℤ) - b.num * (a.den : ℤ)) (a.den * b.den)

/-- Powers of ten as rationals. -/
def qPow10 (n : ℕ) : ℚ := mkRat ((10 : ℤ) ^ n) 1

/-- Truncation toward zero, the semantics of Python int() on a number. -/
def ratTrunc (q : ℚ) : ℤ := q.num.tdiv q.den

/-- Round half to even to an integer, the semantics of Python round(x). -/
def roundHalfEven (q : ℚ) : ℤ :=
  let f := ⌊q⌋
  let r := qSub q (qInt f)
  if r < mkRat 1 2 then f
  else if mkRat 1 2 < r then f + 1
  else if f % 2 = 0 then f else f + 1

/-- Python round(x, ndigits) on rationals: scale, round half to even, unscale. -/
def pyRound (q : ℚ) (ndigits : ℕ) : ℚ :=
  qDiv (qInt (roundHalfEven (qMul q (qPow10 ndigits)))) (qPow10 ndigits)

/-- Python slice s[i:] with a possibly negative start index. -/
def pySliceFrom (s : String) (i : ℤ) : String :=
  let n : ℤ := (s.length : ℤ)
  let start : ℤ := if i < 0 then max 0 (n + i) else min i n
  s.drop start.toNat

/-- Python exceptions that the embedded code can raise. -/
inductive PyErr where
  | keyError (k : String)
  | typeError (m : String)
  | attributeError (m : String)
  | nameError (m : String)
  | valueError (m : String)
deriving DecidableEq, Repr, Inhabited

/-! ### String helpers for parsing the Location response header.
Python source: int((resp.headers["Location"]).split("/")[-1].strip()).
These are written as structural recursion over the character list so that
they evaluate inside the kernel. -/

/-- Characters after the last occurrence of sep: split(sep)[-1]. -/
def afterLastSep (sep : Char) : List Char → List Char → List Char
  | [], acc => acc.reverse
  | c :: rest, acc =>
    if c = sep then afterLastSep sep rest [] else afterLastSep sep rest (c :: acc)

/-- Python str.strip: drop ASCII whitespace from both ends. -/
def isPySpace (c : Char) : Bool :=
  c = ' ' ∨ c = '\t' ∨ c = '\n' ∨ c = '\r'

/-- Strip leading whitespace from a character list. -/
def dropLeadingSpace : List Char → List Char
  | [] => []
  | c :: rest => if isPySpace c then dropLeadingSpace rest else c :: rest

/-- Strip whitespace from both ends of a character list. -/
def pyStripChars (cs : List Char) : List Char :=
  (dropLeadingSpace (dropLeadingSpace cs.reverse).reverse)

/-- Parse a decimal digit. -/
def digitVal (c : Char) : Option ℕ :=
  if '0' ≤ c ∧ c ≤ '9' then some (c.toNat - '0'.toNat) else none

/-- Parse an unsigned decimal numeral; none on empty or non-digit input. -/
def parseDigits : List Char → ℕ → Option ℕ
  | [], acc => some acc
  | c :: rest, acc =>
    match digitVal c with
    | some d => parseDigits rest (acc * 10 + d)
    | none => none

/-- Python int(s) on a stripped character list: optional sign, then digits. -/
def pyParseInt (cs : List Char) : Option ℤ :=
  match cs with
  | [] => none
  | '-' :: rest => if rest = [] then none else (parseDigits rest 0).map (fun n => -(n : ℤ))
  | '+' :: rest => if rest = [] then none else (parseDigits rest 0).map (fun n => (n : ℤ))
  | _ => (parseDigits cs 0).map (fun n => (n : ℤ))

/-- Embeds int((location).split("/")[-1].strip()); none models a ValueError. -/
def parseOrderId (location : String) : Option ℤ :=
  pyParseInt (pyStripChars (afterLastSep '/' location.data []))

/-! ## Data model -/

/-- An incoming trade signal row, as consumed by ApiTrader.runTrader.
The option metadata fields are optional: an EQUITY signal does not carry
Pre_Symbol, Exp_Date or Option_Type. Position_Type is written into the row
by runTrader before submission. -/
structure TradeRow where
  symbol : String
  side : String
  strategy : String
  assetType : String
  preSymbol : Option String := none
  expDate : Option String := none
  optionType : Option String := none
  positionType : Option String := none
deriving DecidableEq, Repr, Inhabited

/-- The trade_data dictionary passed to sendOrder and the order builder:
either a raw signal row (open direction) or the row merged with the stored
open position (close direction). Absent keys are none. -/
structure TradeData where
  symbol : String
  side : String
  strategy : String
  assetType : String
  preSymbol : Option String := none
  expDate : Option String := none
  optionType : Option String := none
  positionType : Option String := none
  qty : Option ℤ := none
  entryPrice : Option ℚ := none
  entryDate : Option String := none
  positionSize : Option ℤ := none
deriving DecidableEq, Repr, Inhabited

/-- A strategy configuration document from the strategies collection. -/
structure StrategyObject where
  active : Bool
  orderType : String
  assetType : String
  positionSize : ℤ
  positionType : String
  strategy : String
deriving DecidableEq, Repr, Inhabited

/-- One leg of the broker order payload. -/
structure OrderLeg where
  instruction : Option String := none
  quantity : Option ℤ := none
  symbol : Option String := none
  assetType : Option String := none
  putCall : Option String := none
deriving DecidableEq, Repr, Inhabited

/-- One child leg of an OCO bracket payload built by OrderBuilder.OCOorder. -/
structure ChildLeg where
  orderStrategyType : String
  session : String
  duration : String
  orderType : String
  price : Option ℚ := none
  stopPrice : Option ℚ := none
  instruction : String
  quantity : Option ℤ := none
  assetType : String
  symbol : String
deriving DecidableEq, Repr, Inhabited

/-- The OCO wrapper nested under childOrderStrategies of a TRIGGER order:
a take-profit LIMIT leg and a stop-loss STOP leg. -/
structure OCOWrapper where
  takeProfit : ChildLeg
  stopLoss : ChildLeg
deriving DecidableEq, Repr, Inhabited

/-- The broker-facing order payload built by OrderBuilder (self.order). -/
structure Order where
  orderType : String := "LIMIT"
  price : Option ℚ := none
  session : Option String := none
  duration : Option String := none
  orderStrategyType : String := "SINGLE"
  leg : OrderLeg := {}
  childOrderStrategies : Option OCOWrapper := none
deriving DecidableEq, Repr, Inhabited

/-- One entry of the extracted OCO child map (Tasks.extractOCOchildren). -/
structure OCOChild where
  side : String
  exitPrice : ℚ
  exitType : String
  orderStatus : String
deriving DecidableEq, Repr, Inhabited

/-- The internal tracking record built by OrderBuilder (self.obj); documents
with these fields form the queue collection. Trader and account_id are fixed
by the engine instance and are omitted. -/
structure Obj where
  symbol : String
  qty : Option ℤ := none
  positionSize : Option ℤ := none
  strategy : String
  orderId : Option ℤ := none
  orderStatus : Option String := none
  side : String
  assetType : String
  positionType : String
  direction : String
  orderType : String
  preSymbol : Option String := none
  expDate : Option String := none
  optionType : Option String := none
  entryPrice : Option ℚ := none
  entryDate : Option String := none
  exitPrice : Option ℚ := none
  exitDate : Option String := none
  accountPosition : Option String := none
  childOrderStrategies : Option (List (ℤ × OCOChild)) := none
deriving DecidableEq, Repr, Inhabited

/-- A document of the open_positions or closed_positions collection, as
inserted by ApiTrader.pushOrder. -/
structure PositionRecord where
  symbol : String
  strategy : String
  positionSize : Option ℤ
  positionType : String
  dataIntegrity : String
  assetType : String
  accountPosition : Option String
  orderType : String
  preSymbol : Option String := none
  expDate : Option String := none
  optionType : Option String := none
  qty : ℤ
  entryPrice : ℚ
  entryDate : String
  exitPrice : Option ℚ := none
  exitDate : Option String := none
deriving DecidableEq, Repr, Inhabited

/-- An append-only audit document of the rejected or canceled collection. -/
structure AuditRecord where
  symbol : String
  orderType : String
  orderStatus : String
  strategy : String
  date : String
deriving DecidableEq, Repr, Inhabited

/-- A document of the forbidden collection. The engine compares the plain
symbol string against these documents with the Python operator in, which
tests equality of the string with each document. -/
structure ForbiddenDoc where
  symbol : String
deriving DecidableEq, Repr, Inhabited

/-- The broker response for one order id, as consumed by updateStatus and
pushOrder. hasError models the key error being present; the remaining fields
model get calls and key accesses on the response dictionary, none meaning
the key is absent. activity bundles orderActivityCollection[0].
executionLegs[0].price with the top-level quantity field. -/
structure ChildOrder where
  orderId : ℤ
  instruction : String
  stopPrice : Option ℚ := none
  price : Option ℚ := none
  status : String
deriving DecidableEq, Repr, Inhabited

/-- Broker order-status response; see ChildOrder for the nested children of
childOrderStrategies[0].childOrderStrategies. -/
structure SpecOrder where
  hasError : Bool
  orderId : Option ℤ := none
  status : Option String := none
  activity : Option (ℚ × ℚ) := none
  price : Option ℚ := none
  children : Option (List ChildOrder) := none
deriving DecidableEq, Repr, Inhabited

/-- The part of a broker snapshot (or the synthesized custom dictionary)
that pushOrder reads: the optional execution activity and the top-level
price key. -/
structure PushSpec where
  activity : Option (ℚ × ℚ) := none
  price : Option ℚ := none
deriving DecidableEq, Repr, Inhabited

/-- The persistent state of one engine instance: the five document
collections the lifecycle logic reads and writes, plus the strategies
collection. -/
structure EngineState where
  queue : List Obj := []
  openPositions : List PositionRecord := []
  closedPositions : List PositionRecord := []
  rejected : List AuditRecord := []
  canceled : List AuditRecord := []
  strategies : List StrategyObject := []
deriving DecidableEq, Repr, Inhabited

/-- The empty initial state of a fresh engine instance. -/
def initialState : EngineState := {}

/-- External collaborators and per-cycle external inputs: token validity,
account mode, the live quote feed (bid, ask), the option symbol formatter,
the broker response to an order placement, the random paper order id, the
clock and the two bracket multipliers from the configuration file. -/
structure Env where
  tokenValid : Bool
  live : Bool
  now : String
  quote : String → ℚ × ℚ
  optionSymbol : String → String → String → String → String
  submitStatus : ℕ
  submitLocation : String
  randInt : ℕ
  takeProfitPct : ℚ
  stopLossPct : ℚ

/-- Outcome classification of one sendOrder call. -/
inductive SendOutcome where
  | aborted
  | builderError (e : PyErr)
  | noop
  | rejectedOrder (r : AuditRecord)
  | queuedOrder (o : Obj)
deriving DecidableEq, Repr, Inhabited

/-- Result of one sendOrder call: the state afterwards, the outcome, and
whether the broker order-placement endpoint was invoked. -/
structure SendResult where
  state : EngineState
  outcome : SendOutcome
  brokerCalled : Bool
deriving DecidableEq, Repr, Inhabited

/-! ## Keys and small store helpers -/

/-- Key of a queue document: the (Symbol, Strategy) pair (Trader and
account_id are fixed per engine instance). -/
def qkey (o : Obj) : String × String := (o.symbol, o.strategy)

/-- Key of a position document: the (Symbol, Strategy) pair. -/
def pkey (p : PositionRecord) : String × String := (p.symbol, p.strategy)

/-- Mongo filter on Symbol and Strategy for queue documents. -/
def qkeyP (k : String × String) (x : Obj) : Bool := decide (qkey x = k)

/-- Mongo filter on Symbol and Strategy for position documents. -/
def pkeyP (k : String × String) (p : PositionRecord) : Bool := decide (pkey p = k)

/-- Mongo update_one: rewrite the first document matching the filter. -/
def updateFirst {α : Type} (p : α → Bool) (f : α → α) : List α → List α
  | [] => []
  | x :: xs => if p x then f x :: xs else x :: updateFirst p f xs

/-- Python dictionary assignment d[k] = v on an association list. -/
def dictInsert (m : List (ℤ × OCOChild)) (k : ℤ) (v : OCOChild) : List (ℤ × OCOChild) :=
  if m.any (fun kv => decide (kv.1 = k)) then
    m.map (fun kv => if kv.1 = k then (k, v) else kv)
  else m ++ [(k, v)]

/-- Python equality between a str and a forbidden-collection document (a
dict): always False, since values of different types never compare equal. -/
def pyStrEqDict (_s : String) (_d : ForbiddenDoc) : Bool := false

/-- Embeds the expression symbol in forbidden_symbols of runTrader, where
forbidden_symbols is the cursor of forbidden documents: the operator in
compares the string with each document via pyStrEqDict. -/
def pyStrInForbidden (s : String) (docs : List ForbiddenDoc) : Bool :=
  docs.any (fun d => pyStrEqDict s d)

/-! ## Order builder (src/api_trader/order_builder.py) -/

/-- Embeds order_builder.py line 134: the price stored on the broker order,
round(price, 2) if price >= 1 else round(price, 2). Both branches of the
source conditional round to 2 digits. -/
def builderRound (price : ℚ) : ℚ :=
  if price ≥ 1 then pyRound price 2 else pyRound price 2

/-- Embeds api_trader line 309: the fill price used by pushOrder,
round(price, 2) if price >= 1 else round(price, 4). -/
def pushRound (price : ℚ) : ℚ :=
  if price ≥ 1 then pyRound price 2 else pyRound price 4

/-- Embeds order_builder.py lines 142 and 143: the share count computed when
opening a position, int(position_size/price) for an EQUITY asset and
int((position_size / 100)/price) otherwise. -/
def computeShares (asset_type : String) (position_size : ℤ) (price : ℚ) : ℤ :=
  if asset_type = "EQUITY" then ratTrunc (qDiv (qInt position_size) price)
  else ratTrunc (qDiv (qDiv (qInt position_size) (qInt 100)) price)

/-- The quote price standardOrder uses for a non-bracket order (order_builder
lines 122 to 125): the ask for a buy-type side, the bid otherwise, quoted on
the formatted option symbol. Meaningful when the option fields are present;
on an input missing them standardOrder raises before using any price. -/
def builderQuote (env : Env) (trade_data : TradeData) : ℚ :=
  match trade_data.preSymbol, trade_data.expDate, trade_data.optionType with
  | some preSym, some expDate, some optType =>
    let fsym := env.optionSymbol trade_data.symbol expDate (optType.take 1)
      (pySliceFrom preSym ((preSym.length : ℤ) - 3))
    let q := env.quote fsym
    if trade_data.side = "BUY" ∨ trade_data.side = "BUY_TO_OPEN" ∨ trade_data.side = "BUY_TO_CLOSE"
    then q.2 else q.1
  | _, _, _ => 0

/-- Embeds OrderBuilder.standardOrder (order_builder.py lines 61 to 182).
Returns ok none for the Python return of the pair (None, None); raises
KeyError on the unconditional reads of Pre_Symbol, Exp_Date and Option_Type
(lines 70 to 74), before the asset type is determined on line 80. The
EQUITY quote call symbol.json() on line 122 would raise AttributeError,
but that branch is unreachable: asset_type is EQUITY exactly when
Pre_Symbol is absent, and then line 70 has already raised. -/
def standardOrder (env : Env) (trade_data : TradeData) (strategy_object : StrategyObject)
    (direction : String) (isOCO : Bool) : Except PyErr (Option (Order × Obj)) :=
  match trade_data.preSymbol with
  | none => .error (.keyError "Pre_Symbol")
  | some preSym =>
  match trade_data.expDate with
  | none => .error (.keyError "Exp_Date")
  | some expDate =>
  match trade_data.optionType with
  | none => .error (.keyError "Option_Type")
  | some optType =>
    let symbol := trade_data.symbol
    let split_strike := pySliceFrom preSym ((preSym.length : ℤ) - 3)
    let formatted_symbol := env.optionSymbol symbol expDate (optType.take 1) split_strike
    let side := trade_data.side
    let strategy := trade_data.strategy
    let asset_type := if trade_data.preSymbol.isSome then "OPTION" else "EQUITY"
    let order : Order := {
      orderType := "LIMIT"
      session := some "NORMAL"
      duration := some (if asset_type = "EQUITY" then "GOOD_TILL_CANCEL" else "DAY")
      orderStrategyType := "SINGLE"
      leg := {
        instruction := some side
        symbol := some (if asset_type = "EQUITY" then symbol else formatted_symbol)
        assetType := some asset_type
        putCall := if asset_type = "OPTION" then some optType else none } }
    let obj : Obj := {
      symbol := symbol
      strategy := strategy
      side := side
      assetType := asset_type
      positionType := strategy_object.positionType
      orderType := strategy_object.orderType
      direction := direction
      preSymbol := if asset_type = "OPTION" then some formatted_symbol else none
      expDate := if asset_type = "OPTION" then some expDate else none
      optionType := if asset_type = "OPTION" then some optType else none }
    if asset_type = "EQUITY" then .error (.attributeError "json")
    else
      let q := env.quote (if asset_type = "EQUITY" then symbol else formatted_symbol)
      let price : ℚ := if isOCO then q.1 else builderQuote env trade_data
      let order := { order with price := some (builderRound price) }
      if direction = "OPEN POSITION" then
        let position_size : ℤ := strategy_object.positionSize
        let shares : ℤ := computeShares asset_type position_size price
        if strategy_object.active ∧ shares > 0 then
          .ok (some ({ order with leg := { order.leg with quantity := some shares } },
            { obj with
              qty := some shares
              positionSize := some position_size
              entryPrice := some price
              entryDate := some env.now }))
        else
          .ok none
      else if direction = "CLOSE POSITION" then
        match trade_data.qty with
        | none => .error (.keyError "Qty")
        | some tqty =>
        match trade_data.entryPrice with
        | none => .error (.keyError "Entry_Price")
        | some tep =>
        match trade_data.entryDate with
        | none => .error (.keyError "Entry_Date")
        | some ted =>
        match trade_data.positionSize with
        | none => .error (.keyError "Position_Size")
        | some tps =>
          .ok (some ({ order with leg := { order.leg with quantity := some tqty } },
            { obj with
              entryPrice := some tep
              entryDate := some ted
              exitPrice := some price
              exitDate := some env.now
              qty := some tqty
              positionSize := some tps }))
      else
        .ok (some (order, obj))

/-- Embeds OrderBuilder.OCOorder (order_builder.py lines 184 to 266). When
standardOrder returned the pair (None, None), the item assignment on the
None order raises TypeError; a side outside the four open sides leaves the
local variable instruction unbound, raising at first use. -/
def OCOorder (env : Env) (trade_data : TradeData) (strategy_object : StrategyObject)
    (direction : String) : Except PyErr (Option (Order × Obj)) :=
  match standardOrder env trade_data strategy_object direction true with
  | .error e => .error e
  | .ok none => .error (.typeError "NoneType does not support item assignment")
  | .ok (some (order, obj)) =>
    let asset_type := if trade_data.preSymbol.isSome then "OPTION" else "EQUITY"
    let side := trade_data.side
    match (if side = "BUY_TO_OPEN" then some "SELL_TO_CLOSE"
           else if side = "BUY" then some "SELL"
           else if side = "SELL" then some "BUY"
           else if side = "SELL_TO_OPEN" then some "BUY_TO_CLOSE"
           else none) with
    | none => .error (.nameError "instruction")
    | some instruction =>
      match trade_data.preSymbol, trade_data.expDate, trade_data.optionType with
      | some preSym, some expDate, some optType =>
        let split_strike := pySliceFrom preSym ((preSym.length : ℤ) - 3)
        let formatted_symbol :=
          env.optionSymbol trade_data.symbol expDate (optType.take 1) split_strike
        match order.price with
        | none => .error (.typeError "unsupported operand types")
        | some basePrice =>
          let tp := qMul basePrice env.takeProfitPct
          let sl := qMul basePrice env.stopLossPct
          let tpLeg : ChildLeg := {
            orderStrategyType := "SINGLE", session := "NORMAL",
            duration := "GOOD_TILL_CANCEL", orderType := "LIMIT",
            price := some (if tp ≥ 1 then pyRound tp 2 else pyRound tp 2),
            instruction := instruction, quantity := obj.qty,
            assetType := asset_type,
            symbol := if asset_type = "EQUITY" then trade_data.symbol else formatted_symbol }
          let slLeg : ChildLeg := {
            orderStrategyType := "SINGLE", session := "NORMAL",
            duration := "GOOD_TILL_CANCEL", orderType := "STOP",
            stopPrice := some (if sl ≥ 1 then pyRound sl 2 else pyRound sl 2),
            instruction := instruction, quantity := obj.qty,
            assetType := asset_type,
            symbol := if asset_type = "EQUITY" then trade_data.symbol else formatted_symbol }
          .ok (some ({ order with
                       orderStrategyType := "TRIGGER"
                       childOrderStrategies := some { takeProfit := tpLeg, stopLoss := slLeg } },
                     obj))
      | _, _, _ => .error (.keyError "Pre_Symbol")

/-! ## Order lifecycle engine (src/api_trader/__init__.py) -/

/-- Embeds ApiTrader.queueOrder (lines 202 to 209): upsert the order into the
queue collection keyed on Trader, Symbol and Strategy. -/
def queueOrder (order : Obj) (s : EngineState) : EngineState :=
  { s with queue :=
      if s.queue.any (qkeyP (qkey order)) then
        updateFirst (qkeyP (qkey order)) (fun _ => order) s.queue
      else s.queue ++ [order] }

/-- Embeds ApiTrader.sendOrder (lines 130 to 197). The builder dispatch, the
live branch on the HTTP status code of the placement response (rejected and
recorded unless the status is 200 or 201, with the error text only logged),
the Location header parse, and the paper branch with a negative synthetic
order id. brokerCalled records whether client.order_place was invoked. -/
def sendOrder (env : Env) (trade_data : TradeData) (strategy_object : StrategyObject)
    (direction : String) (s : EngineState) : SendResult :=
  if ¬ env.tokenValid then ⟨s, .aborted, false⟩ else
  let symbol := trade_data.symbol
  let strategy := trade_data.strategy
  let side := trade_data.side
  let order_type := strategy_object.orderType
  if order_type = "STANDARD" ∨ order_type = "OCO" then
    match (if order_type = "STANDARD"
           then standardOrder env trade_data strategy_object direction false
           else OCOorder env trade_data strategy_object direction) with
    | .error e => ⟨s, .builderError e, false⟩
    | .ok none => ⟨s, .noop, false⟩
    | .ok (some (_order, obj)) =>
      if env.live then
        if ¬ (env.submitStatus = 200 ∨ env.submitStatus = 201) then
          let other : AuditRecord :=
            { symbol := symbol, orderType := side, orderStatus := "REJECTED",
              strategy := strategy, date := env.now }
          ⟨{ s with rejected := s.rejected ++ [other] }, .rejectedOrder other, true⟩
        else
          match parseOrderId env.submitLocation with
          | none => ⟨s, .builderError (.valueError "invalid literal for int"), true⟩
          | some oid =>
            let obj := { obj with
              orderId := some oid
              accountPosition := some "Live"
              orderStatus := some "QUEUED" }
            ⟨queueOrder obj s, .queuedOrder obj, true⟩
      else
        let obj := { obj with
          orderId := some (-(env.randInt : ℤ))
          accountPosition := some "Paper"
          orderStatus := some "QUEUED" }
        ⟨queueOrder obj s, .queuedOrder obj, false⟩
  else ⟨s, .aborted, false⟩

/-- Recursion of extractOCOchildren over the nested child orders, building
the Python dictionary keyed by child order id. A child with neither a
stopPrice nor a price key raises KeyError. -/
def extractGo : List ChildOrder → List (ℤ × OCOChild) → Except PyErr (List (ℤ × OCOChild))
  | [], acc => .ok acc
  | c :: rest, acc =>
    match (match c.stopPrice with | some p => some p | none => c.price) with
    | none => .error (.keyError "price")
    | some xp =>
      extractGo rest (dictInsert acc c.orderId
        { side := c.instruction, exitPrice := xp,
          exitType := if c.stopPrice.isSome then "STOP LOSS" else "TAKE PROFIT",
          orderStatus := c.status })

/-- Embeds Tasks.extractOCOchildren (tasks.py lines 128 to 150): one map
entry per nested child order, keyed by orderId, carrying the instruction,
the stop price when present otherwise the limit price, the exit type STOP
LOSS exactly when a stop price is present, and the broker status. -/
def extractOCOchildren (spec_order : SpecOrder) : Except PyErr (List (ℤ × OCOChild)) :=
  match spec_order.children with
  | none => .error (.keyError "childOrderStrategies")
  | some children => extractGo children []

/-- Embeds ApiTrader.pushOrder (lines 295 to 416). Price and shares come
from the execution activity when present, else from the price key of the
snapshot and the stored queue quantity; the price is rounded by pushRound.
An OPEN POSITION inserts an open position; a CLOSE POSITION reads the open
position (TypeError if absent, before any write), inserts a closed position
and deletes the open one; either way the queue document is deleted. On any
raise the store is unchanged, since every raising read precedes the first
write. Returns the new state and the inserted record. -/
def pushOrder (env : Env) (queue_order : Obj) (spec : PushSpec) (data_integrity : String)
    (s : EngineState) : Except PyErr (EngineState × Option PositionRecord) :=
  let symbol := queue_order.symbol
  let pq : Except PyErr (ℚ × ℤ) :=
    match spec.activity with
    | some a => .ok (a.1, ratTrunc a.2)
    | none =>
      match spec.price, queue_order.qty with
      | some p, some n => .ok (p, n)
      | some _, none => .error (.typeError "int of NoneType")
      | none, _ => .error (.keyError "price")
  match pq with
  | .error e => .error e
  | .ok (priceRaw, shares) =>
    let price := pushRound priceRaw
    let strategy := queue_order.strategy
    let optFields : Except PyErr (Option String × Option String × Option String) :=
      if queue_order.assetType = "OPTION" then
        match queue_order.preSymbol, queue_order.expDate, queue_order.optionType with
        | some a, some b, some c => .ok (some a, some b, some c)
        | none, _, _ => .error (.keyError "Pre_Symbol")
        | some _, none, _ => .error (.keyError "Exp_Date")
        | some _, some _, none => .error (.keyError "Option_Type")
      else .ok (none, none, none)
    match optFields with
    | .error e => .error e
    | .ok (ps, ed, ot) =>
      if queue_order.direction = "OPEN POSITION" then
        let posRec : PositionRecord :=
          { symbol := symbol, strategy := strategy,
            positionSize := queue_order.positionSize,
            positionType := queue_order.positionType, dataIntegrity := data_integrity,
            assetType := queue_order.assetType,
            accountPosition := queue_order.accountPosition,
            orderType := queue_order.orderType,
            preSymbol := ps, expDate := ed, optionType := ot,
            qty := shares, entryPrice := price, entryDate := env.now }
        .ok ({ s with
               openPositions := s.openPositions ++ [posRec]
               queue := s.queue.eraseP (qkeyP (symbol, strategy)) }, some posRec)
      else if queue_order.direction = "CLOSE POSITION" then
        match s.openPositions.find? (pkeyP (symbol, strategy)) with
        | none => .error (.typeError "NoneType is not subscriptable")
        | some position =>
          let posRec : PositionRecord :=
            { symbol := symbol, strategy := strategy,
              positionSize := queue_order.positionSize,
              positionType := queue_order.positionType, dataIntegrity := data_integrity,
              assetType := queue_order.assetType,
              accountPosition := queue_order.accountPosition,
              orderType := queue_order.orderType,
              preSymbol := ps, expDate := ed, optionType := ot,
              qty := position.qty, entryPrice := position.entryPrice,
              entryDate := position.entryDate,
              exitPrice := some price, exitDate := some env.now }
          .ok ({ s with
                 openPositions := s.openPositions.eraseP (pkeyP (symbol, strategy))
                 closedPositions := s.closedPositions ++ [posRec]
                 queue := s.queue.eraseP (qkeyP (symbol, strategy)) }, some posRec)
      else
        .ok ({ s with queue := s.queue.eraseP (qkeyP (symbol, strategy)) }, none)

/-- Embeds the body of the ApiTrader.updateStatus loop (lines 215 to 290)
for one queued order and the broker response for its order id. The error
key means the order id was not found: resolve from the queued snapshot with
integrity Assumed in live mode and Reliable in paper mode. Otherwise branch
on the reported status: FILLED resolves (merging the extracted OCO child
map first for OCO orders), CANCELED and REJECTED delete the queue document
and append an audit record, and anything else only rewrites the stored
status. A raise inside pushOrder aborts the decorated method, leaving the
state unchanged. -/
def updateStatusStep (env : Env) (queue_order : Obj) (spec_order : SpecOrder)
    (s : EngineState) : EngineState :=
  if ¬ env.tokenValid then s else
  if spec_order.hasError then
    let custom : PushSpec :=
      { activity := none,
        price := if queue_order.direction = "OPEN POSITION"
                 then queue_order.entryPrice else queue_order.exitPrice }
    let data_integrity := if env.live then "Assumed" else "Reliable"
    match pushOrder env queue_order custom data_integrity s with
    | .ok (s1, _) => s1
    | .error _ => s
  else
    let new_status := spec_order.status
    let order_type := queue_order.orderType
    if queue_order.orderId = spec_order.orderId then
      if new_status = some "FILLED" then
        let merged : Except PyErr Obj :=
          if order_type = "OCO" then
            match extractOCOchildren spec_order with
            | .ok m => .ok { queue_order with childOrderStrategies := some m }
            | .error e => .error e
          else .ok queue_order
        match merged with
        | .error _ => s
        | .ok q =>
          match pushOrder env q { activity := spec_order.activity, price := spec_order.price }
              "Reliable" s with
          | .ok (s1, _) => s1
          | .error _ => s
      else if new_status = some "CANCELED" ∨ new_status = some "REJECTED" then
        let s1 := { s with queue := s.queue.eraseP (qkeyP (qkey queue_order)) }
        let other : AuditRecord :=
          { symbol := queue_order.symbol, orderType := order_type,
            orderStatus := if new_status = some "REJECTED" then "REJECTED" else "CANCELED",
            strategy := queue_order.strategy, date := env.now }
        if new_status = some "REJECTED" then
          { s1 with rejected := s1.rejected ++ [other] }
        else
          { s1 with canceled := s1.canceled ++ [other] }
      else
        let newQueue := updateFirst (qkeyP (qkey queue_order))
          (fun x => { x with orderStatus := new_status }) s.queue
        { s with queue := newQueue }
    else s

/-- Embeds Tasks.addNewStrategy (tasks.py lines 152 to 175): insert a
permissive default configuration unless the strategy name already exists. -/
def addNewStrategy (strategy asset_type : String) (s : EngineState) : EngineState :=
  if s.strategies.any (fun t => decide (t.strategy = strategy)) then s
  else
    let newDefault : StrategyObject :=
      { active := true, orderType := "STANDARD", assetType := asset_type,
        positionSize := 500, positionType := "LONG", strategy := strategy }
    { s with strategies := s.strategies ++ [newDefault] }

/-- View of a raw signal row as the trade_data dictionary (open direction). -/
def tradeDataOfRow (row : TradeRow) : TradeData :=
  { symbol := row.symbol, side := row.side, strategy := row.strategy,
    assetType := row.assetType, preSymbol := row.preSymbol,
    expDate := row.expDate, optionType := row.optionType,
    positionType := row.positionType }

/-- Embeds the merge of a row with the stored open position for a close,
runTrader line 508: the position document keys override the row keys. -/
def mergeRowPosition (row : TradeRow) (pos : PositionRecord) : TradeData :=
  { symbol := pos.symbol, side := row.side, strategy := pos.strategy,
    assetType := pos.assetType,
    preSymbol := pos.preSymbol <|> row.preSymbol,
    expDate := pos.expDate <|> row.expDate,
    optionType := pos.optionType <|> row.optionType,
    positionType := some pos.positionType,
    qty := some pos.qty, entryPrice := some pos.entryPrice,
    entryDate := some pos.entryDate, positionSize := pos.positionSize }

/-- Decision core of runTrader (lines 474 to 511) once the strategy object
is at hand: skip when queued; close on the four closing side and position
type pairings when a position is open; otherwise open on the four opening
pairings when the forbidden check passes. -/
def runTraderCore (env : Env) (row : TradeRow) (forbidden : List ForbiddenDoc)
    (open_position : Option PositionRecord) (queued : Option Obj)
    (strategy_object : StrategyObject) (s : EngineState) : EngineState :=
  let position_type := strategy_object.positionType
  let row := { row with positionType := some position_type }
  let side := row.side
  if queued.isSome then s
  else
    match open_position with
    | some pos =>
      if (side = "BUY" ∧ position_type = "SHORT") ∨ (side = "SELL" ∧ position_type = "LONG")
        ∨ (side = "SELL_TO_CLOSE" ∧ position_type = "LONG")
        ∨ (side = "BUY_TO_CLOSE" ∧ position_type = "SHORT") then
        (sendOrder env (mergeRowPosition row pos) strategy_object "CLOSE POSITION" s).state
      else s
    | none =>
      if pyStrInForbidden row.symbol forbidden then s
      else if (side = "BUY" ∧ position_type = "LONG") ∨ (side = "SELL" ∧ position_type = "SHORT")
        ∨ (side = "SELL_TO_OPEN" ∧ position_type = "SHORT")
        ∨ (side = "BUY_TO_OPEN" ∧ position_type = "LONG") then
        (sendOrder env (tradeDataOfRow row) strategy_object "OPEN POSITION" s).state
      else s

/-- Embeds the body of the ApiTrader.runTrader loop (lines 442 to 511) for
one signal row: look up the open position, the queued order and the
strategy configuration (creating a default configuration on first
encounter), then decide via runTraderCore. When the token check at the top
of runTrader fails the whole run is aborted. -/
def runTraderRow (env : Env) (row : TradeRow) (forbidden : List ForbiddenDoc)
    (s : EngineState) : EngineState :=
  if ¬ env.tokenValid then s else
  let strategy := row.strategy
  let symbol := row.symbol
  let asset_type := row.assetType
  let open_position := s.openPositions.find? (pkeyP (symbol, strategy))
  let queued := s.queue.find? (qkeyP (symbol, strategy))
  match s.strategies.find? (fun t => decide (t.strategy = strategy)) with
  | some strategy_object =>
    runTraderCore env row forbidden open_position queued strategy_object s
  | none =>
    let s1 := addNewStrategy strategy asset_type s
    match s1.strategies.find? (fun t => decide (t.strategy = strategy)) with
    | some strategy_object =>
      runTraderCore env row forbidden open_position queued strategy_object s1
    | none => s1

/-- Reachability of engine states from a fresh instance: any interleaving
of decision steps (one signal row of runTrader, with arbitrary external
inputs) and polling steps (one queued order of updateStatus, with an
arbitrary broker response). -/
inductive Reachable : EngineState → Prop
  | init : Reachable initialState
  | decide (env : Env) (row : TradeRow) (forbidden : List ForbiddenDoc) {s : EngineState} :
      Reachable s → Reachable (runTraderRow env row forbidden s)
  | poll (env : Env) (qo : Obj) (spec : SpecOrder) {s : EngineState} :
      Reachable s → qo ∈ s.queue → Reachable (updateStatusStep env qo spec s)

/-- Structural invariant of reachable states: queue keys are distinct, open
position keys are distinct, and no open-direction queued order shares its
key with an open position. -/
def EngineInv (s : EngineState) : Prop :=
  (s.queue.map qkey).Nodup ∧
  (s.openPositions.map pkey).Nodup ∧
  ∀ qo ∈ s.queue, qo.direction = "OPEN POSITION" →
    ∀ p ∈ s.openPositions, pkey p ≠ qkey qo

/-! ## Concrete scenario used by the counterexamples and witnesses -/

/-- Concrete environment: paper account, valid token, every quote 2.00,
plain concatenating option symbol formatter. -/
def cxEnv : Env :=
  { tokenValid := true
    live := false
    now := "2026-01-01 00:00:00"
    quote := fun _ => (mkRat 2 1, mkRat 2 1)
    optionSymbol := fun s e r k => String.append (String.append (String.append s e) r) k
    submitStatus := 201
    submitLocation := "orders/12345"
    randInt := 123456789
    takeProfitPct := mkRat 2 1
    stopLossPct := mkRat 1 2 }

/-- Concrete opening signal: buy SPY put option under strategy S1. -/
def cxRow1 : TradeRow :=
  { symbol := "SPY", side := "BUY", strategy := "S1", assetType := "OPTION",
    preSymbol := some "SPY_092625P569", expDate := some "2025-09-26",
    optionType := some "PUT" }

/-- State after the opening decision: one queued open-direction order. -/
def cxS1 : EngineState := runTraderRow cxEnv cxRow1 [] initialState

/-- The queued order created by the opening decision on cxRow1. -/
def cxQO : Obj :=
  { symbol := "SPY", qty := some 2, positionSize := some 500, strategy := "S1",
    orderId := some (-123456789), orderStatus := some "QUEUED", side := "BUY",
    assetType := "OPTION", positionType := "LONG", direction := "OPEN POSITION",
    orderType := "STANDARD", preSymbol := some "SPY2025-09-26P569",
    expDate := some "2025-09-26", optionType := some "PUT",
    entryPrice := some (mkRat 2 1), entryDate := some "2026-01-01 00:00:00",
    accountPosition := some "Paper" }

/-- Broker response reporting the queued order FILLED at price 2.00. -/
def cxSpecFill : SpecOrder :=
  { hasError := false, orderId := some (-123456789), status := some "FILLED",
    activity := some (mkRat 2 1, mkRat 2 1) }

/-- State after polling the fill: one open position, empty queue. -/
def cxS2 : EngineState := updateStatusStep cxEnv cxQO cxSpecFill cxS1

/-- Concrete closing signal: sell the same symbol and strategy. -/
def cxRow2 : TradeRow := { cxRow1 with side := "SELL" }

/-- State after the closing decision: a close-direction queued order while
the open position still exists. -/
def cxS3 : EngineState := runTraderRow cxEnv cxRow2 [] cxS2


/-- Outcome test: did sendOrder record a rejection. -/
def isRejectedOutcome : SendOutcome → Bool
  | .rejectedOrder _ => true
  | _ => false

/-- Outcome test: did sendOrder create a queued order. -/
def isQueuedOutcome : SendOutcome → Bool
  | .queuedOrder _ => true
  | _ => false

/-! Concrete data for the claim on inactive strategies (close direction). -/

/-- An inactive strategy configuration. -/
def cInactiveStrat : StrategyObject :=
  { active := false, orderType := "STANDARD", assetType := "OPTION",
    positionSize := 500, positionType := "LONG", strategy := "S2" }

/-- An open position held under the inactive strategy. -/
def cInactivePos : PositionRecord :=
  { symbol := "XYZ", strategy := "S2", positionSize := some 500,
    positionType := "LONG", dataIntegrity := "Reliable", assetType := "OPTION",
    accountPosition := some "Paper", orderType := "STANDARD",
    preSymbol := some "XYZ_092625C100", expDate := some "2025-09-26",
    optionType := some "CALL", qty := 3, entryPrice := mkRat 2 1,
    entryDate := "2026-01-01 00:00:00" }

/-- A state holding that open position and the inactive configuration. -/
def cInactiveState : EngineState :=
  { openPositions := [cInactivePos], strategies := [cInactiveStrat] }

/-- A closing signal for the inactive strategy. -/
def cInactiveRow : TradeRow :=
  { symbol := "XYZ", side := "SELL", strategy := "S2", assetType := "OPTION",
    preSymbol := some "XYZ_092625C100", expDate := some "2025-09-26",
    optionType := some "CALL" }

/-- The state after deciding the closing signal under the inactive strategy. -/
def cInactiveAfter : EngineState := runTraderRow cxEnv cInactiveRow [] cInactiveState

/-! Concrete data for the sub-dollar rounding claim. -/

/-- An active STANDARD strategy configuration used across scenarios. -/
def cStrat : StrategyObject :=
  { active := true, orderType := "STANDARD", assetType := "OPTION",
    positionSize := 500, positionType := "LONG", strategy := "S1" }

/-- Environment quoting 0.5555 for every symbol. -/
def c4Env : Env := { cxEnv with quote := fun _ => (mkRat 1111 2000, mkRat 1111 2000) }

/-- The opening signal viewed as trade data. -/
def cxTd : TradeData := tradeDataOfRow cxRow1

/-- The broker order built at the 0.5555 quote. -/
def c4Order : Order :=
  match standardOrder c4Env cxTd cStrat "OPEN POSITION" false with
  | .ok (some (o, _)) => o
  | _ => {}

/-! Concrete data for the submit branching claim. -/

/-- Live environment whose placement response has HTTP status 202. -/
def c5Env : Env := { cxEnv with live := true, submitStatus := 202 }

/-- The sendOrder result at status 202. -/
def c5Send : SendResult := sendOrder c5Env cxTd cStrat "OPEN POSITION" initialState

/-- Live environment with status 201 and order id 777 in the Location header. -/
def w5Env : Env := { cxEnv with live := true, submitStatus := 201, submitLocation := "orders/777" }

/-- The builder pair produced in the w5Env scenario. -/
def w5Pair : Order × Obj :=
  match standardOrder w5Env cxTd cStrat "OPEN POSITION" false with
  | .ok (some p) => p
  | _ => ({}, default)

/-- The queued document expected from the w5Env scenario. -/
def w5QObj : Obj :=
  { w5Pair.2 with
    orderId := some 777
    accountPosition := some "Live"
    orderStatus := some "QUEUED" }

/-! Concrete data for the orphaned-order claim. -/

/-- Live environment, otherwise as cxEnv. -/
def c6Env : Env := { cxEnv with live := true }

/-- Broker response with the error key present (order id not found). -/
def c6SpecErr : SpecOrder := { hasError := true }

/-- The pushOrder call updateStatus makes for the orphaned cxQO. -/
def c6Res : Except PyErr (EngineState × Option PositionRecord) :=
  pushOrder c6Env cxQO
    { activity := none,
      price := if cxQO.direction = "OPEN POSITION" then cxQO.entryPrice else cxQO.exitPrice }
    (if c6Env.live then "Assumed" else "Reliable") cxS1

/-- The state component of c6Res. -/
def c6ResState : EngineState :=
  match c6Res with
  | .ok (s, _) => s
  | _ => initialState

/-- The inserted record component of c6Res. -/
def c6Rec : PositionRecord :=
  match c6Res with
  | .ok (_, some r) => r
  | _ => default

/-! Concrete data for the poll idempotence claim. -/

/-- Broker response reporting the unchanged status QUEUED for cxQO. -/
def c7Spec : SpecOrder :=
  { hasError := false, orderId := some (-123456789), status := some "QUEUED" }

/-! Concrete data for the OCO child extraction claim. -/

/-- Two bracket legs: a limit child and a stop child. -/
def c8Children : List ChildOrder :=
  [{ orderId := 11, instruction := "SELL_TO_CLOSE", price := some (mkRat 4 1),
     status := "WORKING" },
   { orderId := 12, instruction := "SELL_TO_CLOSE", stopPrice := some (mkRat 1 1),
     status := "WORKING" }]

/-- A FILLED OCO broker response carrying the two bracket legs. -/
def c8Spec : SpecOrder :=
  { hasError := false, orderId := some 5, status := some "FILLED",
    children := some c8Children }

/-- Exit price selection of one extracted child: the stop price when
present, otherwise the limit price (0 is never reached when one of the two
is present). -/
def ocoChildOf (c : ChildOrder) : OCOChild :=
  { side := c.instruction,
    exitPrice := match c.stopPrice with | some p => p | none => c.price.getD 0,
    exitType := if c.stopPrice.isSome then "STOP LOSS" else "TAKE PROFIT",
    orderStatus := c.status }

/-- The map entry of one extracted child, keyed by the child order id. -/
def ocoEntryOf (c : ChildOrder) : ℤ × OCOChild := (c.orderId, ocoChildOf c)

/-! Concrete data for the forbidden-symbols claim. -/

/-- The forbidden collection holding one document for symbol AAPL. -/
def c9Forbidden : List ForbiddenDoc := [{ symbol := "AAPL" }]

/-- An active strategy configuration named S9. -/
def c9Strat : StrategyObject :=
  { active := true, orderType := "STANDARD", assetType := "OPTION",
    positionSize := 500, positionType := "LONG", strategy := "S9" }

/-- A buy signal for the forbidden symbol AAPL. -/
def c9Row : TradeRow :=
  { symbol := "AAPL", side := "BUY", strategy := "S9", assetType := "OPTION",
    preSymbol := some "AAPL_092625C100", expDate := some "2025-09-26",
    optionType := some "CALL" }

/-- A state with no positions and no queue, knowing strategy S9. -/
def c9State : EngineState := { strategies := [c9Strat] }

/-- The state after deciding the AAPL signal with AAPL on the forbidden list. -/
def c9After : EngineState := runTraderRow cxEnv c9Row c9Forbidden c9State

/-! Concrete data for the equity-input claim. -/

/-- A plain EQUITY signal with no option metadata. -/
def c10Td : TradeData :=
  { symbol := "SPY", side := "BUY", strategy := "S1", assetType := "EQUITY" }

/-- The rejection audit record sendOrder inserts on a non-queued placement
response (api_trader lines 171 to 183): symbol, side (stored under the
Order_Type key), status REJECTED, strategy and timestamp. The broker error
text is logged, not stored. -/
def rejectionRecord (td : TradeData) (env : Env) : AuditRecord :=
  { symbol := td.symbol, orderType := td.side, orderStatus := "REJECTED", strategy := td.strategy, date := env.now }

/-- The queued document sendOrder upserts after a 200 or 201 placement
response: the builder record with the parsed order id, Live mode and
status QUEUED. -/
def liveQueuedObj (obj : Obj) (oid : ℤ) : Obj :=
  { obj with orderId := some oid, accountPosition := some "Live", orderStatus := some "QUEUED" }

/-! Concrete data for the key-discipline resolve witness. -/

/-- A broker snapshot carrying execution activity at price 2, quantity 2. -/
def wC1Spec : PushSpec := { activity := some (mkRat 2 1, mkRat 2 1) }

/-- The resolve of cxQO against wC1Spec. -/
def wC1Res : Except PyErr (EngineState × Option PositionRecord) :=
  pushOrder cxEnv cxQO wC1Spec "Reliable" cxS1

/-- The state component of wC1Res. -/
def wC1State : EngineState :=
  match wC1Res with
  | .ok (s, _) => s
  | _ => initialState

/-- The record component of wC1Res. -/
def wC1Rec : PositionRecord :=
  match wC1Res with
  | .ok (_, some r) => r
  | _ => default

/-! ## Bridge lemmas: the kernel-computable rational helpers agree with the
standard field operations on the rationals. -/

/-- qInt is the integer cast. -/
theorem qInt_eq (n : ℤ) : qInt n = (n : ℚ) := by
  simp [qInt]

/-- qPow10 is the power of ten. -/
theorem qPow10_eq (n : ℕ) : qPow10 n = (10 : ℚ) ^ n := by
  simp [qPow10]

/-- qMul is multiplication. -/
theorem qMul_eq (a b : ℚ) : qMul a b = a * b := by
  rw [qMul, Rat.mkRat_eq_divInt, Rat.divInt_eq_div]
  push_cast
  conv_rhs => rw [← Rat.num_div_den a, ← Rat.num_div_den b, div_mul_div_comm]

/-- qSub is subtraction. -/
theorem qSub_eq (a b : ℚ) : qSub a b = a - b := by
  have ha : (a.den : ℚ) ≠ 0 := by exact_mod_cast a.den_nz
  have hb : (b.den : ℚ) ≠ 0 := by exact_mod_cast b.den_nz
  rw [qSub, Rat.mkRat_eq_divInt, Rat.divInt_eq_div]
  push_cast
  conv_rhs => rw [← Rat.num_div_den a, ← Rat.num_div_den b, div_sub_div _ _ ha hb]
  ring_nf

/-- qDiv is division. -/
theorem qDiv_eq (a b : ℚ) : qDiv a b = a / b := by
  rw [qDiv, Rat.divInt_eq_div]
  rcases eq_or_ne b 0 with rfl | hb
  · simp
  · have ha : (a.den : ℚ) ≠ 0 := by exact_mod_cast a.den_nz
    have hbd : (b.den : ℚ) ≠ 0 := by exact_mod_cast b.den_nz
    have hbn : (b.num : ℚ) ≠ 0 := by exact_mod_cast Rat.num_ne_zero.mpr hb
    push_cast
    rw [div_eq_div_iff (mul_ne_zero ha hbn) hb]
    have e1 := (div_eq_iff ha).mp (Rat.num_div_den a)
    have e2 := (div_eq_iff hbd).mp (Rat.num_div_den b)
    rw [e1, e2]
    ring

/-- Truncation toward zero agrees with the floor on nonnegative rationals. -/
theorem ratTrunc_eq_floor {q : ℚ} (h : 0 ≤ q) : ratTrunc q = ⌊q⌋ := by
  rw [ratTrunc, Rat.floor_def]
  exact Int.tdiv_eq_ediv (Rat.num_nonneg.mpr h) (by positivity)

/-! ## List lemmas for the keyed stores -/

/-- updateFirst with a rewrite that preserves the key of every match keeps
the key image. -/
theorem updateFirst_map_of {α β : Type} (p : α → Bool) (f : α → α) (g : α → β)
    (hg : ∀ y, p y = true → g (f y) = g y) :
    ∀ l : List α, (updateFirst p f l).map g = l.map g := by
  intro l
  induction l with
  | nil => rfl
  | cons x xs ih =>
    by_cases hp : p x = true
    · simp [updateFirst, hp, hg x hp]
    · simp [updateFirst, hp, ih]

/-- Membership in updateFirst comes from an old member or a rewrite. -/
theorem mem_updateFirst {α : Type} {p : α → Bool} {f : α → α} {l : List α} {x : α}
    (hx : x ∈ updateFirst p f l) : x ∈ l ∨ ∃ y ∈ l, p y = true ∧ x = f y := by
  induction l with
  | nil => cases hx
  | cons a as ih =>
    by_cases hp : p a = true
    · simp only [updateFirst, hp, if_true] at hx
      rcases List.mem_cons.mp hx with rfl | hmem
      · exact Or.inr ⟨a, List.mem_cons_self a as, hp, rfl⟩
      · exact Or.inl (List.mem_cons_of_mem a hmem)
    · simp only [updateFirst, hp, if_false] at hx
      rcases List.mem_cons.mp hx with rfl | hmem
      · exact Or.inl (List.mem_cons_self x as)
      · rcases ih hmem with h | ⟨y, hy, hpy, hxy⟩
        · exact Or.inl (List.mem_cons_of_mem a h)
        · exact Or.inr ⟨y, List.mem_cons_of_mem a hy, hpy, hxy⟩

/-- updateFirst is the identity when the rewrite fixes every match. -/
theorem updateFirst_eq_self {α : Type} {p : α → Bool} {f : α → α} {l : List α}
    (h : ∀ x ∈ l, p x = true → f x = x) : updateFirst p f l = l := by
  induction l with
  | nil => rfl
  | cons a as ih =>
    by_cases hp : p a = true
    · simp [updateFirst, hp, h a (List.mem_cons_self a as) hp,
        ih (fun x hx => h x (List.mem_cons_of_mem a hx))]
    · simp [updateFirst, hp, ih (fun x hx => h x (List.mem_cons_of_mem a hx))]

/-- Erasing preserves distinctness of the key image. -/
theorem nodup_map_eraseP {α β : Type} (f : α → β) (p : α → Bool) {l : List α}
    (h : (l.map f).Nodup) : ((l.eraseP p).map f).Nodup :=
  ((l.eraseP_sublist).map f).nodup h

/-- Members of an eraseP result are members of the original list. -/
theorem mem_of_mem_eraseP {α : Type} {p : α → Bool} {l : List α} {x : α}
    (hx : x ∈ l.eraseP p) : x ∈ l :=
  (l.eraseP_sublist).subset hx

/-- With distinct keys, erasing the document of a present key removes every
document of that key. -/
theorem key_ne_of_mem_eraseP {α β : Type} [DecidableEq β] {f : α → β} {p : α → Bool} {b : β}
    (hp : ∀ x, p x = true ↔ f x = b) {l : List α} (hnd : (l.map f).Nodup)
    (hex : ∃ a ∈ l, f a = b) {x : α} (hx : x ∈ l.eraseP p) : f x ≠ b := by
  induction l with
  | nil => cases hx
  | cons c cs ih =>
    obtain ⟨a, ha, hab⟩ := hex
    simp only [List.map_cons, List.nodup_cons] at hnd
    by_cases hc : p c = true
    · rw [List.eraseP_cons_of_pos hc] at hx
      have hcb : f c = b := (hp c).mp hc
      rcases List.mem_cons.mp ha with rfl | hacs
      · intro hxb
        exact hnd.1 (by rw [hcb, ← hxb]; exact List.mem_map_of_mem f hx)
      · exact absurd (by rw [hcb, ← hab]; exact List.mem_map_of_mem f hacs) hnd.1
    · rw [List.eraseP_cons_of_neg hc] at hx
      rcases List.mem_cons.mp hx with rfl | hxcs
      · exact fun hxb => hc ((hp x).mpr hxb)
      · rcases List.mem_cons.mp ha with rfl | hacs
        · exact absurd ((hp a).mpr hab) hc
        · exact ih hnd.2 ⟨a, hacs, hab⟩ hxcs

/-- With distinct keys, two members sharing a key are the same document. -/
theorem eq_of_mem_key_nodup {α β : Type} [DecidableEq β] (f : α → β) {l : List α}
    (hnd : (l.map f).Nodup) {x y : α} (hx : x ∈ l) (hy : y ∈ l) (hk : f x = f y) : x = y := by
  induction l with
  | nil => cases hx
  | cons c cs ih =>
    simp only [List.map_cons, List.nodup_cons] at hnd
    rcases List.mem_cons.mp hx with rfl | hxcs
    · rcases List.mem_cons.mp hy with rfl | hycs
      · rfl
      · exact absurd (hk ▸ List.mem_map_of_mem f hycs) hnd.1
    · rcases List.mem_cons.mp hy with rfl | hycs
      · exact absurd (hk ▸ List.mem_map_of_mem f hxcs) hnd.1
      · exact ih hnd.2 hxcs hycs

/-- Appending a document with a fresh key preserves key distinctness. -/
theorem nodup_map_append_singleton {α β : Type} {f : α → β} {l : List α} {a : α}
    (h : (l.map f).Nodup) (hfresh : ∀ x ∈ l, f x ≠ f a) : ((l ++ [a]).map f).Nodup := by
  rw [List.map_append, List.map_singleton]
  refine List.Nodup.append h (List.nodup_singleton _) ?_
  intro b hb hb'
  rw [List.mem_singleton] at hb'
  obtain ⟨x, hx, rfl⟩ := List.mem_map.mp hb
  exact hfresh x hx hb'

/-! ## Effect lemmas for the builder and the engine operations -/

/-- A successful standardOrder keeps the signal key and the direction on the
tracking record. -/
theorem standardOrder_ok_some {env : Env} {td : TradeData} {so : StrategyObject}
    {dir : String} {oco : Bool} {o : Order} {obj : Obj}
    (h : standardOrder env td so dir oco = .ok (some (o, obj))) :
    obj.symbol = td.symbol ∧ obj.strategy = td.strategy ∧ obj.direction = dir := by
  simp only [standardOrder] at h
  repeat' split at h
  all_goals
    simp only [Except.ok.injEq, Option.some.injEq, Prod.mk.injEq, reduceCtorEq] at h
  all_goals
    obtain ⟨-, rfl⟩ := h
  all_goals exact ⟨rfl, rfl, rfl⟩

/-- A successful OCOorder keeps the signal key and the direction on the
tracking record. -/
theorem OCOorder_ok_some {env : Env} {td : TradeData} {so : StrategyObject}
    {dir : String} {o : Order} {obj : Obj}
    (h : OCOorder env td so dir = .ok (some (o, obj))) :
    obj.symbol = td.symbol ∧ obj.strategy = td.strategy ∧ obj.direction = dir := by
  simp only [OCOorder] at h
  split at h
  · exact absurd h (by simp)
  · exact absurd h (by simp)
  · rename_i o0 obj0 heq
    repeat' split at h
    all_goals
      simp only [Except.ok.injEq, Option.some.injEq, Prod.mk.injEq, reduceCtorEq] at h
    all_goals obtain ⟨-, rfl⟩ := h
    all_goals exact standardOrder_ok_some heq

/-- queueOrder only touches the queue collection. -/
theorem queueOrder_fixed (o : Obj) (s : EngineState) :
    (queueOrder o s).openPositions = s.openPositions ∧
    (queueOrder o s).closedPositions = s.closedPositions ∧
    (queueOrder o s).rejected = s.rejected ∧
    (queueOrder o s).canceled = s.canceled ∧
    (queueOrder o s).strategies = s.strategies :=
  ⟨rfl, rfl, rfl, rfl, rfl⟩

/-- Members of the queue after an upsert are old members or the upserted
document. -/
theorem mem_queueOrder {o : Obj} {s : EngineState} {x : Obj}
    (hx : x ∈ (queueOrder o s).queue) : x ∈ s.queue ∨ x = o := by
  simp only [queueOrder] at hx
  split at hx
  · rcases mem_updateFirst hx with h | ⟨y, _, _, rfl⟩
    · exact Or.inl h
    · exact Or.inr rfl
  · rcases List.mem_append.mp hx with h | h
    · exact Or.inl h
    · exact Or.inr (List.mem_singleton.mp h)

/-- Upserting keeps the queue keys distinct. -/
theorem queueOrder_nodup {o : Obj} {s : EngineState}
    (h : (s.queue.map qkey).Nodup) : ((queueOrder o s).queue.map qkey).Nodup := by
  simp only [queueOrder]
  split
  · rw [updateFirst_map_of (qkeyP (qkey o)) (fun _ => o) qkey
      (fun y hy => (of_decide_eq_true hy).symm)]
    exact h
  · rename_i hany
    refine nodup_map_append_singleton h ?_
    intro x hx
    have := (List.any_eq_true).not.mp hany
    push_neg at this
    have hx' := this x hx
    simpa [qkeyP] using hx'

/-- sendOrder never touches the position or strategy collections. -/
theorem sendOrder_fixed (env : Env) (td : TradeData) (so : StrategyObject)
    (dir : String) (s : EngineState) :
    (sendOrder env td so dir s).state.openPositions = s.openPositions ∧
    (sendOrder env td so dir s).state.closedPositions = s.closedPositions ∧
    (sendOrder env td so dir s).state.strategies = s.strategies := by
  simp only [sendOrder]
  repeat' split
  all_goals exact ⟨rfl, rfl, rfl⟩

/-- The queue after sendOrder is unchanged or an upsert of a document with
the key and the direction of the submission. -/
theorem sendOrder_queue_or (env : Env) (td : TradeData) (so : StrategyObject)
    (dir : String) (s : EngineState) :
    (sendOrder env td so dir s).state.queue = s.queue ∨
    ∃ obj : Obj, qkey obj = (td.symbol, td.strategy) ∧ obj.direction = dir ∧
      (sendOrder env td so dir s).state.queue = (queueOrder obj s).queue := by
  simp only [sendOrder]
  split
  · exact Or.inl rfl
  split
  · split
    · exact Or.inl rfl
    · exact Or.inl rfl
    · rename_i o obj heq
      have hobj : obj.symbol = td.symbol ∧ obj.strategy = td.strategy ∧ obj.direction = dir := by
        split at heq
        · exact standardOrder_ok_some heq
        · exact OCOorder_ok_some heq
      split
      · split
        · exact Or.inl rfl
        · split
          · exact Or.inl rfl
          · refine Or.inr ⟨_, ?_, ?_, rfl⟩
            · simp [qkey, hobj.1, hobj.2.1]
            · exact hobj.2.2
      · refine Or.inr ⟨_, ?_, ?_, rfl⟩
        · simp [qkey, hobj.1, hobj.2.1]
        · exact hobj.2.2
  · exact Or.inl rfl

/-- Case analysis of a successful pushOrder: the queue document of the key
is always deleted; an open direction appends an open position with that
key, a close direction moves the open position of the key to the closed
positions, any other direction only deletes the queue document. -/
theorem pushOrder_ok_cases {env : Env} {qo : Obj} {ps : PushSpec} {di : String}
    {s s1 : EngineState} {r : Option PositionRecord}
    (h : pushOrder env qo ps di s = .ok (s1, r)) :
    s1.strategies = s.strategies ∧
    s1.rejected = s.rejected ∧
    s1.canceled = s.canceled ∧
    s1.queue = s.queue.eraseP (qkeyP (qkey qo)) ∧
    ((qo.direction = "OPEN POSITION" ∧
        ∃ pr, r = some pr ∧ pkey pr = qkey qo ∧
          s1.openPositions = s.openPositions ++ [pr] ∧
          s1.closedPositions = s.closedPositions) ∨
     (qo.direction = "CLOSE POSITION" ∧
        ∃ pr, r = some pr ∧ pkey pr = qkey qo ∧
          (∃ pos ∈ s.openPositions, pkey pos = qkey qo) ∧
          s1.openPositions = s.openPositions.eraseP (pkeyP (qkey qo)) ∧
          s1.closedPositions = s.closedPositions ++ [pr]) ∨
     (qo.direction ≠ "OPEN POSITION" ∧ qo.direction ≠ "CLOSE POSITION" ∧
        s1.openPositions = s.openPositions ∧ s1.closedPositions = s.closedPositions ∧
        r = none)) := by
  simp only [pushOrder] at h
  repeat' split at h
  all_goals
    simp only [Except.ok.injEq, Prod.mk.injEq, reduceCtorEq] at h
  all_goals obtain ⟨rfl, rfl⟩ := h
  all_goals refine ⟨rfl, rfl, rfl, rfl, ?_⟩
  all_goals first
    | (refine Or.inl ⟨by assumption, _, rfl, rfl, rfl, rfl⟩)
    | (refine Or.inr (Or.inr ⟨by assumption, by assumption, rfl, rfl, rfl⟩))
    | (rename_i position heq
       refine Or.inr (Or.inl ⟨by assumption, _, rfl, rfl, ?_, rfl, rfl⟩)
       have hp := List.find?_some heq
       simp only [pkeyP] at hp
       exact ⟨position, List.mem_of_find?_eq_some heq, of_decide_eq_true hp⟩)

/-! ## Invariant preservation -/

/-- A state whose queue erased a key and whose open positions are unchanged
inherits the invariant. -/
theorem inv_components {p : Obj → Bool} {s1 s : EngineState}
    (hq : s1.queue = s.queue.eraseP p) (ho : s1.openPositions = s.openPositions)
    (hInv : EngineInv s) : EngineInv s1 := by
  obtain ⟨h1, h2, h3⟩ := hInv
  refine ⟨?_, ?_, ?_⟩
  · rw [hq]; exact nodup_map_eraseP _ _ h1
  · rw [ho]; exact h2
  · intro x hx hxdir pp hpp
    rw [hq] at hx; rw [ho] at hpp
    exact h3 x (mem_of_mem_eraseP hx) hxdir pp hpp

/-- A status rewrite of one queue document preserves the invariant. -/
theorem inv_status_update {s : EngineState} {k : String × String} {st : Option String}
    (hInv : EngineInv s) :
    EngineInv { s with queue := updateFirst (qkeyP k) (fun x => { x with orderStatus := st }) s.queue } := by
  obtain ⟨h1, h2, h3⟩ := hInv
  refine ⟨?_, h2, ?_⟩
  · show ((updateFirst (qkeyP k) (fun x => { x with orderStatus := st }) s.queue).map qkey).Nodup
    rw [updateFirst_map_of (qkeyP k) (fun x => { x with orderStatus := st }) qkey
      (fun y _ => rfl)]
    exact h1
  · intro x hx hxdir p hp
    rcases mem_updateFirst hx with hmem | ⟨y, hy, _, rfl⟩
    · exact h3 x hmem hxdir p hp
    · exact h3 y hy hxdir p hp

/-- A successful pushOrder of a document whose key and direction agree with
a queue member preserves the invariant. -/
theorem pushOrder_preserves_inv {env : Env} {q : Obj} {ps : PushSpec} {di : String}
    {s s1 : EngineState} {r : Option PositionRecord}
    (h : pushOrder env q ps di s = .ok (s1, r)) (hInv : EngineInv s)
    (hex : ∃ qo ∈ s.queue, qkey qo = qkey q ∧ qo.direction = q.direction) :
    EngineInv s1 := by
  obtain ⟨qo, hqo, hkeq, hdir⟩ := hex
  obtain ⟨hstr, hrej, hcan, hqueue, hcases⟩ := pushOrder_ok_cases h
  obtain ⟨h1, h2, h3⟩ := hInv
  have hqnodup : (s1.queue.map qkey).Nodup := by
    rw [hqueue]; exact nodup_map_eraseP _ _ h1
  have hqmem : ∀ x ∈ s1.queue, x ∈ s.queue := by
    intro x hx; rw [hqueue] at hx; exact mem_of_mem_eraseP hx
  have hqkey : ∀ x ∈ s1.queue, qkey x ≠ qkey q := by
    intro x hx
    rw [hqueue] at hx
    exact key_ne_of_mem_eraseP (f := qkey) (b := qkey q)
      (fun y => by simp [qkeyP]) h1 ⟨qo, hqo, hkeq⟩ hx
  rcases hcases with ⟨hdirO, pr, hr, hprk, hopen, hclosed⟩ |
      ⟨hdirC, pr, hr, hprk, hposex, hopen, hclosed⟩ |
      ⟨hne1, hne2, hopen, hclosed, hr⟩
  · refine ⟨hqnodup, ?_, ?_⟩
    · rw [hopen]
      refine nodup_map_append_singleton h2 ?_
      intro p hp
      rw [hprk]
      have := h3 qo hqo (hdir.trans hdirO) p hp
      rw [hkeq] at this; exact this
    · intro x hx hxdir p hp
      rw [hopen] at hp
      rcases List.mem_append.mp hp with hp | hp
      · exact h3 x (hqmem x hx) hxdir p hp
      · rw [List.mem_singleton.mp hp, hprk]
        exact Ne.symm (hqkey x hx)
  · refine ⟨hqnodup, ?_, ?_⟩
    · rw [hopen]; exact nodup_map_eraseP _ _ h2
    · intro x hx hxdir p hp
      rw [hopen] at hp
      exact h3 x (hqmem x hx) hxdir p (mem_of_mem_eraseP hp)
  · refine ⟨hqnodup, ?_, ?_⟩
    · rw [hopen]; exact h2
    · intro x hx hxdir p hp
      rw [hopen] at hp
      exact h3 x (hqmem x hx) hxdir p hp

/-- sendOrder preserves the invariant, provided that for an open direction
no open position holds the submitted key. -/
theorem sendOrder_preserves_inv {env : Env} {td : TradeData} {so : StrategyObject}
    {dir : String} {s : EngineState} (hInv : EngineInv s)
    (hopen : dir = "OPEN POSITION" →
      ∀ p ∈ s.openPositions, pkey p ≠ (td.symbol, td.strategy)) :
    EngineInv (sendOrder env td so dir s).state := by
  obtain ⟨hfo, hfc, hfs⟩ := sendOrder_fixed env td so dir s
  obtain ⟨h1, h2, h3⟩ := hInv
  rcases sendOrder_queue_or env td so dir s with hq | ⟨obj, hkey, hdir, hq⟩
  · refine ⟨?_, ?_, ?_⟩
    · rw [hq]; exact h1
    · rw [hfo]; exact h2
    · intro x hx hxdir p hp
      rw [hq] at hx; rw [hfo] at hp
      exact h3 x hx hxdir p hp
  · refine ⟨?_, ?_, ?_⟩
    · rw [hq]; exact queueOrder_nodup h1
    · rw [hfo]; exact h2
    · intro x hx hxdir p hp
      rw [hfo] at hp
      rw [hq] at hx
      rcases mem_queueOrder hx with hmem | rfl
      · exact h3 x hmem hxdir p hp
      · rw [hkey]
        exact hopen (hdir.symm.trans hxdir) p hp

/-- addNewStrategy does not touch the open positions. -/
theorem addNewStrategy_open (a b : String) (s : EngineState) :
    (addNewStrategy a b s).openPositions = s.openPositions := by
  simp only [addNewStrategy]
  split <;> rfl

/-- addNewStrategy preserves the invariant. -/
theorem addNewStrategy_inv {a b : String} {s : EngineState} (h : EngineInv s) :
    EngineInv (addNewStrategy a b s) := by
  simp only [addNewStrategy]
  split
  · exact h
  · exact h

/-- The decision core preserves the invariant when the open-position
argument is the lookup answer for the signal key. -/
theorem runTraderCore_inv {env : Env} {row : TradeRow} {forbidden : List ForbiddenDoc}
    {op : Option PositionRecord} {qd : Option Obj} {so : StrategyObject} {s : EngineState}
    (hInv : EngineInv s)
    (hop : op = s.openPositions.find? (pkeyP (row.symbol, row.strategy))) :
    EngineInv (runTraderCore env row forbidden op qd so s) := by
  simp only [runTraderCore]
  split
  · exact hInv
  · split
    · split
      · exact sendOrder_preserves_inv hInv (fun hdir => absurd hdir (by decide))
      · exact hInv
    · split
      · exact hInv
      · split
        · refine sendOrder_preserves_inv hInv ?_
          intro _ p hp
          have hfind := List.find?_eq_none.mp hop.symm p hp
          intro hcon
          simp only [tradeDataOfRow] at hcon
          exact hfind (by simp [pkeyP, hcon])
        · exact hInv

/-- One decision step preserves the invariant. -/
theorem runTraderRow_inv {env : Env} {row : TradeRow} {forbidden : List ForbiddenDoc}
    {s : EngineState} (hInv : EngineInv s) :
    EngineInv (runTraderRow env row forbidden s) := by
  simp only [runTraderRow]
  split
  · exact hInv
  · split
    · exact runTraderCore_inv hInv rfl
    · split
      · refine runTraderCore_inv (addNewStrategy_inv hInv) ?_
        rw [addNewStrategy_open]
      · exact addNewStrategy_inv hInv

/-- The merged record used for a FILLED OCO order keeps key and direction. -/
theorem merged_fields {qo : Obj} {spec : SpecOrder} {q : Obj}
    (heq : (if qo.orderType = "OCO" then
              match extractOCOchildren spec with
              | .ok m => Except.ok { qo with childOrderStrategies := some m }
              | .error e => Except.error e
            else Except.ok qo) = Except.ok q) :
    qkey q = qkey qo ∧ q.direction = qo.direction := by
  split at heq
  · split at heq
    · simp only [Except.ok.injEq] at heq
      subst heq
      exact ⟨rfl, rfl⟩
    · exact absurd heq (by simp)
  · simp only [Except.ok.injEq] at heq
    subst heq
    exact ⟨rfl, rfl⟩

/-- One polling step preserves the invariant. -/
theorem updateStatusStep_inv {env : Env} {qo : Obj} {spec : SpecOrder} {s : EngineState}
    (hInv : EngineInv s) (hq : qo ∈ s.queue) :
    EngineInv (updateStatusStep env qo spec s) := by
  simp only [updateStatusStep]
  split
  · exact hInv
  split
  · split
    · rename_i s1 r heq
      exact pushOrder_preserves_inv heq hInv ⟨qo, hq, rfl, rfl⟩
    · exact hInv
  · split
    · split
      · -- FILLED
        split
        · exact hInv
        · rename_i q heq
          split
          · rename_i s1 r heqp
            refine pushOrder_preserves_inv heqp hInv ?_
            obtain ⟨hk, hd⟩ := merged_fields heq
            exact ⟨qo, hq, hk.symm, hd.symm⟩
          · exact hInv
      · split
        · -- CANCELED or REJECTED
          split
          · exact inv_components rfl rfl hInv
          · exact inv_components rfl rfl hInv
        · exact inv_status_update hInv
    · exact hInv

/-- Every reachable state satisfies the structural invariant. -/
theorem reachable_inv {s : EngineState} (h : Reachable s) : EngineInv s := by
  induction h with
  | init =>
    refine ⟨List.nodup_nil, List.nodup_nil, ?_⟩
    intro x hx
    cases hx
  | decide env row forbidden _ ih => exact runTraderRow_inv ih
  | poll env qo spec hr hmem ih => exact updateStatusStep_inv ih hmem

/-! ## Claim C1 -/

/-- C1, counterexample: a reachable state of the order lifecycle state
machine in which the key (SPY, S1) is present in the QueuedOrder store and
in the OpenPosition store at the same time, refuting the claimed
at-most-one-of invariant. The run: open decision queues an order, the poll
resolves its fill into an open position, and the close decision queues a
close-direction order while the open position remains until its fill. -/
theorem C1_counterexample :
    Reachable cxS3 ∧
    cxS3.queue.any (qkeyP ("SPY", "S1")) = true ∧
    cxS3.openPositions.any (pkeyP ("SPY", "S1")) = true := by
  refine ⟨?_, by decide, by decide⟩
  have h1 : Reachable cxS1 := Reachable.decide cxEnv cxRow1 [] Reachable.init
  have h2 : Reachable cxS2 := Reachable.poll cxEnv cxQO cxSpecFill h1 (by decide)
  exact Reachable.decide cxEnv cxRow2 [] h2

/-- C1, amended: in every reachable state no OPEN-direction queued order
shares its key with an open position (the at-most-one-of invariant fails
only for CLOSE-direction queued orders, which by design coexist with the
open position they unwind until filled); and after resolve() (pushOrder)
completes successfully for a queued order of a reachable state, the key is
absent from QueuedOrder, and the inserted record carries the key into
OpenPosition for an open direction, respectively into ClosedPosition with
the key leaving OpenPosition for a close direction. -/
theorem C1_amended_key_discipline :
    ∀ s : EngineState, Reachable s →
      ((∀ qo ∈ s.queue, qo.direction = "OPEN POSITION" →
          ∀ p ∈ s.openPositions, pkey p ≠ qkey qo) ∧
       (∀ (env : Env) (qo : Obj) (ps : PushSpec) (di : String)
          (s1 : EngineState) (r : Option PositionRecord), qo ∈ s.queue →
          pushOrder env qo ps di s = Except.ok (s1, r) →
          (∀ x ∈ s1.queue, qkey x ≠ qkey qo) ∧
          (qo.direction = "OPEN POSITION" →
             ∃ pr, r = some pr ∧ pr ∈ s1.openPositions ∧ pkey pr = qkey qo) ∧
          (qo.direction = "CLOSE POSITION" →
             (∃ pr, r = some pr ∧ pr ∈ s1.closedPositions ∧ pkey pr = qkey qo) ∧
             ∀ p ∈ s1.openPositions, pkey p ≠ qkey qo))) := by
  intro s hreach
  obtain ⟨h1, h2, h3⟩ := reachable_inv hreach
  refine ⟨h3, ?_⟩
  intro env qo ps di s1 r hq hp
  obtain ⟨hstr, hrej, hcan, hqueue, hcases⟩ := pushOrder_ok_cases hp
  refine ⟨?_, ?_, ?_⟩
  · intro x hx
    rw [hqueue] at hx
    exact key_ne_of_mem_eraseP (f := qkey) (b := qkey qo)
      (fun y => by simp [qkeyP]) h1 ⟨qo, hq, rfl⟩ hx
  · intro hdirO
    rcases hcases with ⟨-, pr, hr, hprk, hopen, -⟩ | ⟨hdirC, -⟩ | ⟨hne1, -⟩
    · exact ⟨pr, hr, by rw [hopen]; exact List.mem_append_right _ (List.mem_singleton_self pr),
        hprk⟩
    · rw [hdirO] at hdirC; exact absurd hdirC (by decide)
    · exact absurd hdirO hne1
  · intro hdirC
    rcases hcases with ⟨hdirO, -⟩ | ⟨-, pr, hr, hprk, hposex, hopen, hclosed⟩ | ⟨-, hne2, -⟩
    · rw [hdirC] at hdirO; exact absurd hdirO (by decide)
    · refine ⟨⟨pr, hr, by
          rw [hclosed]; exact List.mem_append_right _ (List.mem_singleton_self pr), hprk⟩, ?_⟩
      intro p hpmem
      rw [hopen] at hpmem
      exact key_ne_of_mem_eraseP (f := pkey) (b := qkey qo)
        (fun y => by simp [pkeyP]) h2 hposex hpmem
    · exact absurd hdirC hne2

/-- C1, witness: the amended key discipline applied to the concrete
reachable state cxS1 and the successful resolve of its queued order. -/
theorem C1_amended_key_discipline_witness :
    Reachable cxS1 ∧ cxQO ∈ cxS1.queue ∧
    pushOrder cxEnv cxQO wC1Spec "Reliable" cxS1 = Except.ok (wC1State, some wC1Rec) ∧
    (∀ x ∈ wC1State.queue, qkey x ≠ qkey cxQO) ∧
    wC1Rec ∈ wC1State.openPositions ∧ pkey wC1Rec = qkey cxQO := by
  have hreach : Reachable cxS1 := Reachable.decide cxEnv cxRow1 [] Reachable.init
  have hmem : cxQO ∈ cxS1.queue := by decide
  have hpush : pushOrder cxEnv cxQO wC1Spec "Reliable" cxS1 =
      Except.ok (wC1State, some wC1Rec) := by rfl
  have h := (C1_amended_key_discipline cxS1 hreach).2 cxEnv cxQO wC1Spec "Reliable"
    wC1State (some wC1Rec) hmem hpush
  refine ⟨hreach, hmem, hpush, h.1, ?_, ?_⟩
  · obtain ⟨pr, hpr1, hpr2, hpr3⟩ := h.2.1 (by decide)
    simp only [Option.some.injEq] at hpr1
    rw [hpr1]
    exact hpr2
  · obtain ⟨pr, hpr1, hpr2, hpr3⟩ := h.2.1 (by decide)
    simp only [Option.some.injEq] at hpr1
    rw [hpr1]
    exact hpr3

/-! ## Claim C2 -/

/-- C2, counterexample: with strategy S2 inactive, a SELL signal against the
existing open position resolves to CLOSE POSITION and decide() still
produces a submission: a close-direction QueuedOrder is created. The active
flag is only consulted on the OPEN POSITION path of standardOrder. -/
theorem C2_counterexample :
    cInactiveStrat.active = false ∧
    cInactiveAfter.queue.any (qkeyP ("XYZ", "S2")) = true ∧
    cInactiveAfter.queue.any (fun q => decide (q.direction = "CLOSE POSITION")) = true :=
  ⟨rfl, by decide, by decide⟩

/-- An inactive strategy makes the OPEN-direction standardOrder a no-op. -/
theorem standardOrder_inactive_open {env : Env} {td : TradeData} {so : StrategyObject}
    {oco : Bool} {r : Option (Order × Obj)}
    (ha : so.active = false)
    (h : standardOrder env td so "OPEN POSITION" oco = .ok r) : r = none := by
  simp only [standardOrder, reduceIte] at h
  rw [ha] at h
  simp only [Bool.false_eq_true, false_and, if_false] at h
  repeat' split at h
  all_goals simp only [Except.ok.injEq, reduceCtorEq] at h
  all_goals exact h.symm

/-- An inactive strategy makes the OPEN-direction OCOorder raise. -/
theorem OCOorder_inactive_open {env : Env} {td : TradeData} {so : StrategyObject}
    {r : Option (Order × Obj)}
    (ha : so.active = false)
    (h : OCOorder env td so "OPEN POSITION" = .ok r) : False := by
  simp only [OCOorder] at h
  split at h
  · exact absurd h (by simp)
  · exact absurd h (by simp)
  · rename_i o0 obj0 heq
    have := standardOrder_inactive_open ha heq
    simp at this

/-- C2, amended: for every strategy config with active=false and every
signal whose direction resolves to OPEN POSITION, sendOrder changes
nothing and never calls the broker order-placement endpoint; the original
claim fails for CLOSE POSITION, where the active flag is ignored. -/
theorem C2_inactive_open_no_submission :
    ∀ (env : Env) (td : TradeData) (so : StrategyObject) (s : EngineState),
      so.active = false →
      (sendOrder env td so "OPEN POSITION" s).state = s ∧
      (sendOrder env td so "OPEN POSITION" s).brokerCalled = false := by
  intro env td so s ha
  simp only [sendOrder]
  split
  · exact ⟨rfl, rfl⟩
  split
  · split
    · exact ⟨rfl, rfl⟩
    · exact ⟨rfl, rfl⟩
    · rename_i o obj heq
      exfalso
      split at heq
      · have := standardOrder_inactive_open ha heq
        simp at this
      · exact OCOorder_inactive_open ha heq
  · exact ⟨rfl, rfl⟩

/-- C2, witness: the amended statement applied to the concrete inactive
strategy and an option signal. -/
theorem C2_inactive_open_no_submission_witness :
    cInactiveStrat.active = false ∧
    (sendOrder cxEnv cxTd cInactiveStrat "OPEN POSITION" initialState).state = initialState ∧
    (sendOrder cxEnv cxTd cInactiveStrat "OPEN POSITION" initialState).brokerCalled = false :=
  ⟨rfl, C2_inactive_open_no_submission cxEnv cxTd cInactiveStrat initialState rfl⟩

/-! ## Claim C10 -/

/-- C10: standardOrder reads Pre_Symbol, Exp_Date and Option_Type
unconditionally before determining the asset type, so for every trade_data
lacking the option metadata, in particular every plain EQUITY signal, it
raises KeyError before building anything and never returns a pair. -/
theorem C10_equity_input_key_error :
    ∀ (env : Env) (td : TradeData) (so : StrategyObject) (direction : String) (oco : Bool),
      td.preSymbol = none → td.expDate = none → td.optionType = none →
      standardOrder env td so direction oco = Except.error (PyErr.keyError "Pre_Symbol") := by
  intro env td so direction oco h1 _h2 _h3
  simp only [standardOrder, h1]

/-- C10, witness: the concrete plain EQUITY signal raises KeyError. -/
theorem C10_equity_input_key_error_witness :
    c10Td.preSymbol = none ∧ c10Td.expDate = none ∧ c10Td.optionType = none ∧
    standardOrder cxEnv c10Td cStrat "OPEN POSITION" false =
      Except.error (PyErr.keyError "Pre_Symbol") :=
  ⟨rfl, rfl, rfl,
    C10_equity_input_key_error cxEnv c10Td cStrat "OPEN POSITION" false rfl rfl rfl⟩

/-! ## Claim C4 -/

/-- C4: at the sub-dollar quote 0.5555 the order builder stores the price
rounded to 2 decimals (0.56), because both branches of the conditional on
order_builder.py line 134 round to 2 digits, while the fill resolution
rounding of pushOrder (pushRound, api_trader line 309) keeps 4 decimals for
sub-dollar prices as the claim states for both places. -/
theorem C4_builder_rounds_subdollar_to_2dp :
    (mkRat 1111 2000 < 1) ∧
    builderRound (mkRat 1111 2000) = mkRat 14 25 ∧
    pushRound (mkRat 1111 2000) = mkRat 1111 2000 ∧
    pyRound (mkRat 1111 2000) 4 = mkRat 1111 2000 ∧
    mkRat 14 25 ≠ mkRat 1111 2000 ∧
    c4Order.price = some (mkRat 14 25) := by
  decide

/-! ## Claim C3 -/

/-- A successful OPEN-direction standardOrder stores exactly the computed
share count, which is positive. -/
theorem standardOrder_open_qty {env : Env} {td : TradeData} {so : StrategyObject}
    {o : Order} {obj : Obj}
    (h : standardOrder env td so "OPEN POSITION" false = .ok (some (o, obj))) :
    obj.qty = some (computeShares "OPTION" so.positionSize (builderQuote env td)) ∧
    0 < computeShares "OPTION" so.positionSize (builderQuote env td) := by
  rcases h1 : td.preSymbol with _ | preSym
  · simp [standardOrder, h1] at h
  rcases h2 : td.expDate with _ | expDate
  · simp [standardOrder, h1, h2] at h
  rcases h3 : td.optionType with _ | optType
  · simp [standardOrder, h1, h2, h3] at h
  simp only [standardOrder, h1, h2, h3, Option.isSome_some, String.reduceEq,
    Bool.false_eq_true, if_true, if_false, reduceIte] at h
  split at h
  · rename_i hcond
    simp only [Except.ok.injEq, Option.some.injEq, Prod.mk.injEq] at h
    obtain ⟨-, rfl⟩ := h
    exact ⟨rfl, hcond.2⟩
  · exact absurd h (by simp)

/-- A nonpositive computed share count makes the OPEN-direction
standardOrder a no-op. -/
theorem standardOrder_open_nonpos {env : Env} {td : TradeData} {so : StrategyObject}
    {r : Option (Order × Obj)}
    (hs : computeShares "OPTION" so.positionSize (builderQuote env td) ≤ 0)
    (h : standardOrder env td so "OPEN POSITION" false = .ok r) : r = none := by
  rcases h1 : td.preSymbol with _ | preSym
  · simp [standardOrder, h1] at h
  rcases h2 : td.expDate with _ | expDate
  · simp [standardOrder, h1, h2] at h
  rcases h3 : td.optionType with _ | optType
  · simp [standardOrder, h1, h2, h3] at h
  simp only [standardOrder, h1, h2, h3, Option.isSome_some, String.reduceEq,
    Bool.false_eq_true, if_true, if_false, reduceIte] at h
  split at h
  · rename_i hcond
    exact absurd hcond.2 (not_lt.mpr hs)
  · simp only [Except.ok.injEq] at h
    exact h.symm

/-- C3: for an OPEN POSITION the computed quantity is the floor of the
position-size budget divided by the quote price for equities, and of the
budget divided by 100 then by the price for options; a successful build
stores exactly that (positive) quantity; and a nonpositive quantity makes
the submission a no-op with no broker call and no state change. -/
theorem C3_quantity_formula :
    ∀ (env : Env) (td : TradeData) (so : StrategyObject) (s : EngineState),
      0 < builderQuote env td → 0 ≤ so.positionSize →
      (computeShares "EQUITY" so.positionSize (builderQuote env td) =
        ⌊(so.positionSize : ℚ) / builderQuote env td⌋) ∧
      (computeShares "OPTION" so.positionSize (builderQuote env td) =
        ⌊((so.positionSize : ℚ) / 100) / builderQuote env td⌋) ∧
      (∀ (o : Order) (obj : Obj),
         standardOrder env td so "OPEN POSITION" false = Except.ok (some (o, obj)) →
         obj.qty = some (computeShares "OPTION" so.positionSize (builderQuote env td)) ∧
         0 < computeShares "OPTION" so.positionSize (builderQuote env td)) ∧
      (computeShares "OPTION" so.positionSize (builderQuote env td) ≤ 0 →
         so.orderType = "STANDARD" →
         (sendOrder env td so "OPEN POSITION" s).state = s ∧
         (sendOrder env td so "OPEN POSITION" s).brokerCalled = false) := by
  intro env td so s hp hps
  have hcast : (0 : ℚ) ≤ (so.positionSize : ℚ) := by exact_mod_cast hps
  refine ⟨?_, ?_, fun o obj h => standardOrder_open_qty h, fun hs ho => ?_⟩
  · simp only [computeShares, reduceIte, qDiv_eq, qInt_eq]
    exact ratTrunc_eq_floor (div_nonneg hcast (le_of_lt hp))
  · simp only [computeShares, reduceIte, qDiv_eq, qInt_eq]
    rw [show ((100 : ℤ) : ℚ) = (100 : ℚ) by norm_num]
    exact ratTrunc_eq_floor (div_nonneg (div_nonneg hcast (by norm_num)) (le_of_lt hp))
  · simp only [sendOrder, ho, String.reduceEq, true_or, if_true]
    split
    · exact ⟨rfl, rfl⟩
    · split
      · exact ⟨rfl, rfl⟩
      · exact ⟨rfl, rfl⟩
      · rename_i o obj heq
        exfalso
        have := standardOrder_open_nonpos hs heq
        simp at this

/-- C3, witness: the formulas and positivity at the concrete quote 2.00 and
budget 500. -/
theorem C3_quantity_formula_witness :
    (0 < builderQuote cxEnv cxTd) ∧ (0 ≤ cStrat.positionSize) ∧
    computeShares "EQUITY" cStrat.positionSize (builderQuote cxEnv cxTd) =
      ⌊(cStrat.positionSize : ℚ) / builderQuote cxEnv cxTd⌋ ∧
    computeShares "OPTION" cStrat.positionSize (builderQuote cxEnv cxTd) =
      ⌊((cStrat.positionSize : ℚ) / 100) / builderQuote cxEnv cxTd⌋ := by
  have h := C3_quantity_formula cxEnv cxTd cStrat initialState (by decide) (by decide)
  exact ⟨by decide, by decide, h.1, h.2.1⟩

/-! ## Claim C5 -/

/-- C5, counterexample: HTTP status 202 is a 2xx response, yet the live
submit records a rejection and creates no QueuedOrder, because the source
checks membership in [200, 201] rather than the 2xx class. -/
theorem C5_counterexample :
    (200 ≤ c5Env.submitStatus ∧ c5Env.submitStatus < 300 ∧
      c5Env.submitStatus ≠ 200 ∧ c5Env.submitStatus ≠ 201) ∧
    isRejectedOutcome c5Send.outcome = true ∧
    c5Send.state.queue = [] ∧
    c5Send.state.rejected = [rejectionRecord cxTd c5Env] := by
  decide

/-- C5, amended: in Live mode with a valid token and a successful STANDARD
build, a placement response with status outside 200 and 201 immediately
inserts the rejection record (symbol, side, strategy, trader, timestamp;
the broker error text is only logged) and creates no QueuedOrder, while a
200 or 201 response parses the order id from the Location header and
upserts the record into QueuedOrder with status QUEUED. -/
theorem C5_submit_branching :
    ∀ (env : Env) (td : TradeData) (so : StrategyObject) (direction : String)
      (s : EngineState) (o : Order) (obj : Obj),
      env.tokenValid = true → env.live = true → so.orderType = "STANDARD" →
      standardOrder env td so direction false = Except.ok (some (o, obj)) →
      ((env.submitStatus ≠ 200 ∧ env.submitStatus ≠ 201) →
         sendOrder env td so direction s =
           ⟨{ s with rejected := s.rejected ++ [rejectionRecord td env] },
            .rejectedOrder (rejectionRecord td env), true⟩) ∧
      ((env.submitStatus = 200 ∨ env.submitStatus = 201) →
         ∀ oid : ℤ, parseOrderId env.submitLocation = some oid →
           sendOrder env td so direction s =
             ⟨queueOrder (liveQueuedObj obj oid) s,
              .queuedOrder (liveQueuedObj obj oid), true⟩) := by
  intro env td so direction s o obj htok hlive ho hbuild
  constructor
  · intro hs
    have hcond : ¬ (env.submitStatus = 200 ∨ env.submitStatus = 201) := by
      rintro (h | h)
      · exact hs.1 h
      · exact hs.2 h
    simp only [sendOrder, htok, hlive, ho, hbuild, String.reduceEq, true_or, reduceIte,
      if_true, if_false, not_true]
    rw [if_pos hcond]
    rfl
  · intro hor oid hparse
    have hcond : ¬ ¬ (env.submitStatus = 200 ∨ env.submitStatus = 201) := not_not_intro hor
    simp only [sendOrder, htok, hlive, ho, hbuild, String.reduceEq, true_or, reduceIte,
      if_true, if_false, not_true]
    rw [if_neg hcond, hparse]
    rfl

/-- C5, witness: the amended branching at the concrete live environment
with status 201 and Location header orders/777. -/
theorem C5_submit_branching_witness :
    sendOrder w5Env cxTd cStrat "OPEN POSITION" initialState =
      ⟨queueOrder (liveQueuedObj w5Pair.2 777) initialState,
       .queuedOrder (liveQueuedObj w5Pair.2 777), true⟩ := by
  have h := C5_submit_branching w5Env cxTd cStrat "OPEN POSITION" initialState
    w5Pair.1 w5Pair.2 rfl rfl rfl (by rfl)
  exact h.2 (Or.inr rfl) 777 (by rfl)

/-! ## Claim C6 -/

/-- Every record pushOrder inserts carries the data integrity marker it was
called with. -/
theorem pushOrder_ok_dataIntegrity {env : Env} {qo : Obj} {ps : PushSpec} {di : String}
    {s s1 : EngineState} {pr : PositionRecord}
    (h : pushOrder env qo ps di s = .ok (s1, some pr)) : pr.dataIntegrity = di := by
  simp only [pushOrder] at h
  repeat' split at h
  all_goals simp only [Except.ok.injEq, Prod.mk.injEq, Option.some.injEq, reduceCtorEq] at h
  all_goals first
    | (obtain ⟨-, rfl⟩ := h; rfl)
    | exact h.2.elim

/-- An OPEN-direction resolve from a snapshot-price push stores the queued
quantity and the rounded snapshot price. -/
theorem pushOrder_custom_open {env : Env} {qo : Obj} {p : ℚ} {n : ℤ} {di : String}
    {s s1 : EngineState} {pr : PositionRecord}
    (hdir : qo.direction = "OPEN POSITION") (hq : qo.qty = some n)
    (h : pushOrder env qo { activity := none, price := some p } di s = .ok (s1, some pr)) :
    pr.qty = n ∧ pr.entryPrice = pushRound p := by
  simp only [pushOrder, hq, hdir, String.reduceEq, if_true, if_false, reduceIte] at h
  repeat' split at h
  all_goals simp only [Except.ok.injEq, Prod.mk.injEq, Option.some.injEq, reduceCtorEq] at h
  all_goals first
    | (obtain ⟨-, rfl⟩ := h; exact ⟨rfl, rfl⟩)
    | exact h.2.elim

/-- A CLOSE-direction resolve from a snapshot-price push stores the rounded
snapshot price as the exit price. -/
theorem pushOrder_custom_close {env : Env} {qo : Obj} {p : ℚ} {n : ℤ} {di : String}
    {s s1 : EngineState} {pr : PositionRecord}
    (hdir : qo.direction = "CLOSE POSITION") (hq : qo.qty = some n)
    (h : pushOrder env qo { activity := none, price := some p } di s = .ok (s1, some pr)) :
    pr.exitPrice = some (pushRound p) := by
  simp only [pushOrder, hq, hdir, String.reduceEq, if_true, if_false, reduceIte] at h
  repeat' split at h
  all_goals simp only [Except.ok.injEq, Prod.mk.injEq, Option.some.injEq, reduceCtorEq] at h
  all_goals first
    | (obtain ⟨-, rfl⟩ := h; rfl)
    | exact h.2.elim

/-- C6: when the broker reports the order id as not found (the error key),
poll() resolves the queued order from its own stored snapshot, the entry
price for an open direction and the exit price for a close direction
together with the stored quantity, and the inserted record carries
Data_Integrity Assumed in Live mode and Reliable in Paper mode. -/
theorem C6_not_found_snapshot_resolution :
    ∀ (env : Env) (qo : Obj) (spec : SpecOrder) (s s1 : EngineState)
      (r : Option PositionRecord),
      env.tokenValid = true → spec.hasError = true →
      pushOrder env qo
        { activity := none,
          price := if qo.direction = "OPEN POSITION" then qo.entryPrice else qo.exitPrice }
        (if env.live then "Assumed" else "Reliable") s = Except.ok (s1, r) →
      updateStatusStep env qo spec s = s1 ∧
      (∀ pr, r = some pr →
        pr.dataIntegrity = (if env.live then "Assumed" else "Reliable")) ∧
      (∀ (p : ℚ) (n : ℤ), qo.direction = "OPEN POSITION" → qo.entryPrice = some p →
         qo.qty = some n → ∀ pr, r = some pr →
         pr.qty = n ∧ pr.entryPrice = pushRound p) ∧
      (∀ (p : ℚ) (n : ℤ), qo.direction = "CLOSE POSITION" → qo.exitPrice = some p →
         qo.qty = some n →
         ∀ pr, r = some pr → pr.exitPrice = some (pushRound p)) := by
  intro env qo spec s s1 r htok herr hpush
  refine ⟨?_, ?_, ?_, ?_⟩
  · simp only [updateStatusStep, htok, herr, reduceIte, if_true, if_false, not_true]
    rw [hpush]
  · rintro pr rfl
    exact pushOrder_ok_dataIntegrity hpush
  · rintro p n hdir hep hqty pr rfl
    rw [hdir, if_pos rfl, hep] at hpush
    exact pushOrder_custom_open hdir hqty hpush
  · rintro p n hdir hxp hqty pr rfl
    rw [hdir] at hpush
    rw [if_neg (by decide), hxp] at hpush
    exact pushOrder_custom_close hdir hqty hpush

/-- C6, witness: the live orphaned resolve of the concrete queued order,
integrity Assumed with the snapshot quantity 2 and entry price 2.00. -/
theorem C6_not_found_snapshot_resolution_witness :
    updateStatusStep c6Env cxQO c6SpecErr cxS1 = c6ResState ∧
    c6Rec.dataIntegrity = "Assumed" ∧ c6Rec.qty = 2 ∧ c6Rec.entryPrice = mkRat 2 1 := by
  have h := C6_not_found_snapshot_resolution c6Env cxQO c6SpecErr cxS1 c6ResState
    (some c6Rec) rfl rfl (by rfl)
  refine ⟨h.1, ?_, ?_, ?_⟩
  · exact h.2.1 c6Rec rfl
  · exact (h.2.2.1 (mkRat 2 1) 2 rfl rfl rfl c6Rec rfl).1
  · exact ((h.2.2.1 (mkRat 2 1) 2 rfl rfl rfl c6Rec rfl).2).trans (by decide)

/-! ## Claim C7 -/

/-- C7: re-running the poll body on a queued order of a reachable state
whose broker-reported status equals the stored status and is none of
FILLED, CANCELED, REJECTED leaves the whole state unchanged: the queued
record keeps all fields, and no audit or position collection is written. -/
theorem C7_poll_idempotent :
    ∀ (env : Env) (qo : Obj) (spec : SpecOrder) (s : EngineState),
      Reachable s → qo ∈ s.queue →
      spec.hasError = false →
      spec.status = qo.orderStatus →
      qo.orderStatus ≠ some "FILLED" →
      qo.orderStatus ≠ some "CANCELED" →
      qo.orderStatus ≠ some "REJECTED" →
      updateStatusStep env qo spec s = s := by
  intro env qo spec s hreach hq herr hstat hf hc hr
  obtain ⟨h1, -, -⟩ := reachable_inv hreach
  simp only [updateStatusStep, herr, Bool.false_eq_true, if_false]
  split
  · rfl
  · split
    · have hcr : ¬ (qo.orderStatus = some "CANCELED" ∨ qo.orderStatus = some "REJECTED") := by
        rintro (h | h)
        · exact hc h
        · exact hr h
      rw [hstat, if_neg hf, if_neg hcr]
      have hfix : ∀ x ∈ s.queue, qkeyP (qkey qo) x = true →
          ({ x with orderStatus := qo.orderStatus } : Obj) = x := by
        intro x hx hkey
        have hxq : x = qo := eq_of_mem_key_nodup qkey h1 hx hq (of_decide_eq_true hkey)
        subst hxq
        rfl
      rw [updateFirst_eq_self hfix]
    · rfl

/-- C7, witness: polling the concrete queued order with its unchanged
status QUEUED changes nothing. -/
theorem C7_poll_idempotent_witness :
    c7Spec.status = cxQO.orderStatus ∧
    updateStatusStep cxEnv cxQO c7Spec cxS1 = cxS1 := by
  refine ⟨rfl, ?_⟩
  exact C7_poll_idempotent cxEnv cxQO c7Spec cxS1
    (Reachable.decide cxEnv cxRow1 [] Reachable.init) (by decide) rfl rfl
    (by decide) (by decide) (by decide)

/-! ## Claim C8 -/

/-- Inserting a fresh key into the child dictionary appends. -/
theorem dictInsert_fresh {m : List (ℤ × OCOChild)} {k : ℤ} {v : OCOChild}
    (h : m.any (fun kv => decide (kv.1 = k)) = false) :
    dictInsert m k v = m ++ [(k, v)] := by
  simp only [dictInsert, h, Bool.false_eq_true, if_false]

/-- With pairwise distinct child ids that all carry a stop or a limit
price, the extraction loop produces one entry per child in order. -/
theorem extractGo_eq :
    ∀ (children : List ChildOrder) (acc : List (ℤ × OCOChild)),
      (∀ c ∈ children, c.stopPrice = none → c.price.isSome) →
      ((acc.map Prod.fst ++ children.map (fun c => c.orderId)).Nodup) →
      extractGo children acc = .ok (acc ++ children.map ocoEntryOf) := by
  intro children
  induction children with
  | nil =>
    intro acc _ _
    simp [extractGo]
  | cons c rest ih =>
    intro acc hpr hnd
    have hfresh : acc.any (fun kv => decide (kv.1 = c.orderId)) = false := by
      rw [List.any_eq_false]
      intro kv hkv
      simp only [decide_eq_true_eq]
      intro hcon
      have h1 : kv.1 ∈ acc.map Prod.fst := List.mem_map_of_mem Prod.fst hkv
      have h2 : c.orderId ∈ c.orderId :: rest.map (fun c => c.orderId) :=
        List.mem_cons_self _ _
      have hdis := (List.nodup_append.mp (by simpa using hnd)).2.2
      exact hdis h1 (by simpa [hcon] using h2)
    rcases hsp : c.stopPrice with _ | p
    · have hps := hpr c (List.mem_cons_self c rest) hsp
      rcases hpp : c.price with _ | pv
      · rw [hpp] at hps
        simp at hps
      · simp only [extractGo, hsp, hpp, Option.isSome_none, Option.isSome_some,
          Bool.false_eq_true, if_false, if_true]
        rw [dictInsert_fresh hfresh]
        refine Eq.trans (ih _ (fun d hd => hpr d (List.mem_cons_of_mem c hd))
          (by simpa [List.map_append, List.append_assoc] using hnd)) ?_
        simp [ocoEntryOf, ocoChildOf, hsp, hpp, List.append_assoc]
    · simp only [extractGo, hsp, Option.isSome_some, if_true]
      rw [dictInsert_fresh hfresh]
      refine Eq.trans (ih _ (fun d hd => hpr d (List.mem_cons_of_mem c hd))
        (by simpa [List.map_append, List.append_assoc] using hnd)) ?_
      simp [ocoEntryOf, ocoChildOf, hsp, List.append_assoc]

/-- With distinct ids, the extracted map answers the lookup of each child
id with the entry of that child. -/
theorem lookup_map_ocoEntryOf {children : List ChildOrder}
    (hnd : (children.map (fun c => c.orderId)).Nodup) {c : ChildOrder}
    (hc : c ∈ children) :
    (children.map ocoEntryOf).lookup c.orderId = some (ocoChildOf c) := by
  induction children with
  | nil => cases hc
  | cons a rest ih =>
    simp only [List.map_cons, List.nodup_cons] at hnd
    rcases List.mem_cons.mp hc with rfl | hcs
    · simp [List.lookup, ocoEntryOf]
    · have hne : c.orderId ≠ a.orderId := by
        intro hcon
        exact hnd.1 (hcon ▸ List.mem_map_of_mem (fun c => c.orderId) hcs)
      have hbeq : (c.orderId == a.orderId) = false := by
        simpa using hne
      simp only [List.map_cons, ocoEntryOf, List.lookup, hbeq]
      exact ih hnd.2 hcs

/-- C8: for a FILLED OCO order, the extracted child map holds one entry per
bracket leg keyed by the broker child order id, each carrying the leg
instruction as its side, the stop price when present otherwise the limit
price as its exit price, Exit_Type STOP LOSS exactly when a stop price is
present and TAKE PROFIT otherwise, and the broker status; and the poll
body passes the queued record merged with exactly this map to the resolve
step. -/
theorem C8_extract_oco_children :
    ∀ (spec : SpecOrder) (children : List ChildOrder),
      spec.children = some children →
      (∀ c ∈ children, c.stopPrice = none → c.price.isSome) →
      (children.map (fun c => c.orderId)).Nodup →
      extractOCOchildren spec = Except.ok (children.map ocoEntryOf) ∧
      (∀ c ∈ children,
        (children.map ocoEntryOf).lookup c.orderId = some (ocoChildOf c)) ∧
      (∀ (env : Env) (qo : Obj) (s s1 : EngineState) (r : Option PositionRecord),
        env.tokenValid = true → spec.hasError = false → qo.orderId = spec.orderId →
        spec.status = some "FILLED" → qo.orderType = "OCO" →
        pushOrder env { qo with childOrderStrategies := some (children.map ocoEntryOf) }
          { activity := spec.activity, price := spec.price } "Reliable" s =
          Except.ok (s1, r) →
        updateStatusStep env qo spec s = s1) := by
  intro spec children hch hpr hnd
  have hex : extractOCOchildren spec = Except.ok (children.map ocoEntryOf) := by
    simp only [extractOCOchildren, hch]
    have h0 := extractGo_eq children [] hpr (by simpa using hnd)
    simpa using h0
  refine ⟨hex, fun c hc => lookup_map_ocoEntryOf hnd hc, ?_⟩
  intro env qo s s1 r htok herr hid hstat hoco hpush
  simp only [updateStatusStep, htok, herr, Bool.false_eq_true, if_false, reduceIte, not_true]
  rw [if_pos hid, hstat, if_pos rfl, hoco]
  rw [hoco] at hpush
  simp only [String.reduceEq, if_true, hex, hpush]

/-- C8, witness: the concrete two-leg bracket extracts to two entries keyed
11 and 12, tagged TAKE PROFIT and STOP LOSS respectively. -/
theorem C8_extract_oco_children_witness :
    extractOCOchildren c8Spec = Except.ok (c8Children.map ocoEntryOf) ∧
    (c8Children.map ocoEntryOf).length = 2 ∧
    (c8Children.map ocoEntryOf).lookup 11 =
      some { side := "SELL_TO_CLOSE", exitPrice := mkRat 4 1,
             exitType := "TAKE PROFIT", orderStatus := "WORKING" } ∧
    (c8Children.map ocoEntryOf).lookup 12 =
      some { side := "SELL_TO_CLOSE", exitPrice := mkRat 1 1,
             exitType := "STOP LOSS", orderStatus := "WORKING" } := by
  have h := C8_extract_oco_children c8Spec c8Children rfl (by decide) (by decide)
  exact ⟨h.1, by decide, by decide, by decide⟩

/-! ## Claim C9 -/

/-- C9: the forbidden-symbols guard never fires. The membership test of
runTrader (api_trader/__init__.py line 435) compares the signal symbol, a
string, against the documents of the forbidden collection, so it is false
even when a document for that symbol exists, and a buy signal for the
listed symbol AAPL is still queued under strategy S9. -/
theorem C9_forbidden_check_ineffective :
    pyStrInForbidden "AAPL" c9Forbidden = false ∧
    c9After.queue.any (qkeyP ("AAPL", "S9")) = true := by
  decide
